import Mathlib

/-!
# Pintos system-call layer and swap device manager

A shallow embedding of `src/userprog/syscall.c` and `src/vm/swap.c`.

* Kernel lists (`struct list`) are Lean lists, in list order.
* A `struct file *` is a record of the address of the struct and its `fd` field.
  `fd` is a C `int`; it is embedded as an unbounded `Int`: a descriptor only grows
  past `2^31 - 1` once more than `2^31 - 2` handles are open at the same time, and
  every handle is a separately allocated `struct file` in a 32-bit address space.
* User memory is an oracle `mem` giving the 32-bit word a dereference yields, and
  every dereference a handler performs is appended to the kernel trace, so that
  "reads the word" is observable.  `f->esp + k` is computed without wrap-around:
  `syscall_handler` only dispatches when `esp` lies below `PHYS_BASE`.
* `thread_exit ()` does not return: a handler that reaches it ends with status
  `exited`, and nothing after the call is executed.
* What `thread_exit ()` does to the file lists lies outside the two source files:
  the handles of a thread that exited stay linked.
* Locks and semaphores are not modelled: every function runs atomically.
* The swap device is a store of bytes by sector and offset; kernel memory is a store
  of bytes by address. A pointer to a `struct swap_entry` is the position of the slot
  in `swap_table`, and a pointer to a `struct sup_page_entry` is the pair of the
  owning thread and the user page that `sup_page_table_lookup` maps to it.
* A function that would dereference a null pointer has no result (`none`).
-/

namespace Pintos

/-! ## Open-file registry -/

/-- A file handle (`struct file`): the address of the struct, which is its identity,
and the descriptor stored in its `fd` field. -/
structure file where
  ptr : Nat
  fd : Int
deriving DecidableEq, Repr

/-- Modelled from the spec: `list_insert_ordered` of the kernel list library is not
under src/ ("the registry is kept sorted by descriptor"). With `fd_less_func` as
comparison it walks the list and inserts `elem` in front of the first element `e`
with `elem.fd < e.fd`, or at the end when there is none. -/
def list_insert_ordered : List file → file → List file
  | [], elem => [elem]
  | e :: rest, elem =>
    if elem.fd < e.fd then elem :: e :: rest
    else e :: list_insert_ordered rest elem

/-- The loop of `give_file_descriptor`: `rest` is the part of `file_list` still to be
visited and `fd_temp` the running descriptor. The result is the returned descriptor
and the new global list. -/
def give_file_descriptor_loop (file_list : List file) (file_pointer : Nat) :
    List file → Int → Int × List file
  | [], fd_temp => (fd_temp + 1, file_list ++ [⟨file_pointer, fd_temp + 1⟩])
  | f :: rest, fd_temp =>
    if f.fd > fd_temp + 1 then
      (fd_temp + 1, list_insert_ordered file_list ⟨file_pointer, fd_temp + 1⟩)
    else give_file_descriptor_loop file_list file_pointer rest f.fd

/-- The function `give_file_descriptor (file_pointer)` on the global `file_list`. -/
def give_file_descriptor (file_list : List file) (file_pointer : Nat) : Int × List file :=
  give_file_descriptor_loop file_list file_pointer file_list 1

/-- The function `find_file_by_fd (fd)`: the first handle of the global list whose
descriptor is `fd`, or `none` for `NULL`. -/
def find_file_by_fd : List file → Int → Option file
  | [], _ => none
  | f :: rest, fd => if f.fd = fd then some f else find_file_by_fd rest fd

/-- The function `thread_has_file (fd)` on the current thread's own list. -/
def thread_has_file : List file → Int → Bool
  | [], _ => false
  | f :: rest, fd => if f.fd = fd then true else thread_has_file rest fd

/-- The two loops of `handle_close`: unlink the first element whose descriptor is
`fd` and stop; `none` when the loop runs to `list_end` without finding one. -/
def remove_first_fd : List file → Int → Option (List file)
  | [], _ => none
  | f :: rest, fd =>
    if f.fd = fd then some rest
    else (remove_first_fd rest fd).map (fun l => f :: l)

/-! ## Trap frames, user memory and the kernel state seen by the handlers -/

/-- The two fields of `struct intr_frame` the handlers use. `eax` is a `uint32_t`. -/
structure intr_frame where
  esp : Nat
  eax : Nat
deriving DecidableEq, Repr

/-- What a handler does that is visible outside it, in program order. -/
inductive Event where
  | deref (addr : Nat)
  | strlen (addr : Nat)
  | printf_exit (tid : Nat) (status : Int)
  | putbuf (buffer size : Nat)
  | input_getc (dst : Nat)
  | filesys_open (name : Nat)
  | filesys_create (name size : Nat)
  | file_length (fp : Nat)
  | file_read (fp buffer size : Nat)
  | file_write (fp buffer size : Nat)
  | process_execute (cmd_line : Nat)
  | process_wait (pid : Int)
  | sema_down_exec (pid : Int)
deriving DecidableEq, Repr

/-- The collaborators of one handler invocation: the running thread, its user
memory and page directory, and the results the filesystem and process layers give. -/
structure Env where
  cur : Nat
  mem : Nat → Nat
  mapped : Nat → Bool
  strlen : Nat → Nat
  filesys_open : Nat → Option Nat
  filesys_create : Nat → Nat → Bool
  file_length : Nat → Int
  file_read : Nat → Nat → Nat → Int
  file_write : Nat → Nat → Nat → Int
  process_execute : Nat → Int
  child_found : Bool
  load_success : Bool
  process_wait : Int → Int

/-- The kernel state the handlers read and write: the global `file_list`, each
thread's own `file_list`, the two `info` fields, and the trace. -/
structure Kernel where
  file_list : List file
  thread_file_list : Nat → List file
  exit_status : Nat → Int
  is_killed : Nat → Bool
  trace : List Event

/-- How a handler ends: it returns to the interrupt stub, or it called `thread_exit`. -/
inductive Status where
  | returned
  | exited
deriving DecidableEq, Repr

/-- Kernel state, trap frame and status when a handler ends. -/
structure Result where
  kernel : Kernel
  frame : intr_frame
  status : Status

/-- Modelled from the spec: `PHYS_BASE` of threads/vaddr.h is not under src/
("the kernel/user address split"); Pintos places it at 3 GB. -/
def PHYS_BASE : Nat := 0xc0000000

/-- Conversion of a 32-bit word to a C `int`. -/
def to_int (w : Nat) : Int :=
  if w % 4294967296 < 2147483648 then (w % 4294967296 : Nat) else ((w % 4294967296 : Nat) : Int) - 4294967296

/-- The cast `(uint32_t) x` of a C `int`. -/
def to_uint32 (x : Int) : Nat := (x % 4294967296).toNat

/-- A 32-bit load from address `addr`. -/
def load32 (env : Env) (addr : Nat) : Nat := env.mem addr % 4294967296

/-- Point update of a per-thread field. -/
def set_at {α : Type} (g : Nat → α) (tid : Nat) (v : α) : Nat → α :=
  fun t => if t = tid then v else g t

/-- Append one event to the trace. -/
def Kernel.emit (k : Kernel) (e : Event) : Kernel :=
  { k with trace := k.trace ++ [e] }

/-- The state `syscall_init` leaves: both lists empty. -/
def syscall_init : Kernel :=
  { file_list := [], thread_file_list := fun _ => [], exit_status := fun _ => 0,
    is_killed := fun _ => false, trace := [] }

/-- The function `is_invalid (addr)`: null, at or above `PHYS_BASE`, or unmapped. -/
def is_invalid (env : Env) (addr : Nat) : Bool :=
  addr == 0 || decide (PHYS_BASE ≤ addr) || !env.mapped addr

/-- The function `handle_invalid (f)`: -1 in `eax`, the exit line, `is_killed`, and
`thread_exit`. -/
def handle_invalid (env : Env) (k : Kernel) (f : intr_frame) : Result :=
  { kernel := { (k.emit (.printf_exit env.cur (-1))) with
                is_killed := set_at k.is_killed env.cur true },
    frame := { f with eax := to_uint32 (-1) },
    status := .exited }

/-- Set `f->eax` and return to the interrupt stub. -/
def ret_eax (k : Kernel) (f : intr_frame) (v : Nat) : Result :=
  { kernel := k, frame := { f with eax := v }, status := .returned }

/-- The handler `handle_exit`. -/
def handle_exit (env : Env) (k : Kernel) (f : intr_frame) : Result :=
  if is_invalid env (f.esp + 4) then handle_invalid env k f
  else
    let status := to_int (load32 env (f.esp + 4))
    let k := k.emit (.deref (f.esp + 4))
    { kernel := { (k.emit (.printf_exit env.cur status)) with
                  exit_status := set_at k.exit_status env.cur status },
      frame := f, status := .exited }

/-- The handler `handle_write`. The three argument words are loaded first, with no
check; the `fd == 1` branch calls `putbuf` and assigns nothing to `f->eax`. -/
def handle_write (env : Env) (k : Kernel) (f : intr_frame) : Result :=
  let size := load32 env (f.esp + 12)
  let k := k.emit (.deref (f.esp + 12))
  let buffer := load32 env (f.esp + 8)
  let k := k.emit (.deref (f.esp + 8))
  let fd := to_int (load32 env (f.esp + 4))
  let k := k.emit (.deref (f.esp + 4))
  if is_invalid env buffer then handle_invalid env k f
  else if fd = 1 then
    { kernel := k.emit (.putbuf buffer size), frame := f, status := .returned }
  else if fd > 1 then
    match find_file_by_fd k.file_list fd with
    | none => ret_eax k f (to_uint32 (-1))
    | some found_file =>
      if !thread_has_file (k.thread_file_list env.cur) fd then ret_eax k f (to_uint32 (-1))
      else
        ret_eax (k.emit (.file_write found_file.ptr buffer size)) f
          (to_uint32 (env.file_write found_file.ptr buffer size))
  else ret_eax k f (to_uint32 (-1))

/-- The handler `handle_halt`. -/
def handle_halt (_env : Env) (k : Kernel) (f : intr_frame) : Result :=
  { kernel := k, frame := f, status := .exited }

/-- The handler `handle_create`. An empty name shares the branch of an invalid name
pointer; `strlen` is only evaluated when the pointer passed `is_invalid`. -/
def handle_create (env : Env) (k : Kernel) (f : intr_frame) : Result :=
  if is_invalid env (f.esp + 4) || is_invalid env (f.esp + 8) then handle_invalid env k f
  else
    let file := load32 env (f.esp + 4)
    let k := k.emit (.deref (f.esp + 4))
    let initial_size := load32 env (f.esp + 8)
    let k := k.emit (.deref (f.esp + 8))
    if is_invalid env file then handle_invalid env k f
    else
      let k := k.emit (.strlen file)
      if env.strlen file = 0 then handle_invalid env k f
      else if env.strlen file > 14 then ret_eax k f 0
      else
        let k := k.emit (.filesys_open file)
        if (env.filesys_open file).isSome then ret_eax k f 0
        else
          ret_eax (k.emit (.filesys_create file initial_size)) f
            (if env.filesys_create file initial_size then 1 else 0)

/-- The handler `handle_open`. -/
def handle_open (env : Env) (k : Kernel) (f : intr_frame) : Result :=
  if is_invalid env (f.esp + 4) then handle_invalid env k f
  else
    let file := load32 env (f.esp + 4)
    let k := k.emit (.deref (f.esp + 4))
    if is_invalid env file then handle_invalid env k f
    else
      let k := k.emit (.filesys_open file)
      match env.filesys_open file with
      | some open_file =>
        let r := give_file_descriptor k.file_list open_file
        ret_eax
          { k with
            file_list := r.2,
            thread_file_list := set_at k.thread_file_list env.cur
              (k.thread_file_list env.cur ++ [⟨open_file, r.1⟩]) }
          f (to_uint32 r.1)
      | none => ret_eax k f (to_uint32 (-1))

/-- The handler `handle_remove`: an empty body. -/
def handle_remove (_env : Env) (k : Kernel) (f : intr_frame) : Result :=
  { kernel := k, frame := f, status := .returned }

/-- The handler `handle_close`. The descriptor word is loaded with no check. -/
def handle_close (env : Env) (k : Kernel) (f : intr_frame) : Result :=
  let fd := to_int (load32 env (f.esp + 4))
  let k := k.emit (.deref (f.esp + 4))
  match remove_first_fd (k.thread_file_list env.cur) fd with
  | none =>
    { kernel := { (k.emit (.printf_exit env.cur (-1))) with
                  exit_status := set_at k.exit_status env.cur (-1) },
      frame := f, status := .exited }
  | some own =>
    { kernel := { k with
                  thread_file_list := set_at k.thread_file_list env.cur own,
                  file_list := (remove_first_fd k.file_list fd).getD k.file_list },
      frame := f, status := .returned }

/-- The handler `handle_read`. -/
def handle_read (env : Env) (k : Kernel) (f : intr_frame) : Result :=
  let fd := to_int (load32 env (f.esp + 4))
  let k := k.emit (.deref (f.esp + 4))
  let buffer := load32 env (f.esp + 8)
  let k := k.emit (.deref (f.esp + 8))
  let size := load32 env (f.esp + 12)
  let k := k.emit (.deref (f.esp + 12))
  if is_invalid env buffer then handle_invalid env k f
  else if fd = 0 then
    ret_eax { k with trace := k.trace ++ (List.range size).map (fun i => .input_getc (buffer + i)) }
      f size
  else if fd > 1 then
    match find_file_by_fd k.file_list fd with
    | none => ret_eax k f (to_uint32 (-1))
    | some read_file =>
      if !thread_has_file (k.thread_file_list env.cur) fd then ret_eax k f (to_uint32 (-1))
      else
        ret_eax (k.emit (.file_read read_file.ptr buffer size)) f
          (to_uint32 (env.file_read read_file.ptr buffer size))
  else ret_eax k f (to_uint32 (-1))

/-- The handler `handle_filesize`. -/
def handle_filesize (env : Env) (k : Kernel) (f : intr_frame) : Result :=
  let fd := to_int (load32 env (f.esp + 4))
  let k := k.emit (.deref (f.esp + 4))
  if fd > 1 then
    match find_file_by_fd k.file_list fd with
    | none => ret_eax k f (to_uint32 (-1))
    | some found_file =>
      if !thread_has_file (k.thread_file_list env.cur) fd then ret_eax k f (to_uint32 (-1))
      else
        ret_eax (k.emit (.file_length found_file.ptr)) f
          (to_uint32 (env.file_length found_file.ptr))
  else ret_eax k f (to_uint32 (-1))

/-- The handler `handle_exec`. -/
def handle_exec (env : Env) (k : Kernel) (f : intr_frame) : Result :=
  if is_invalid env (f.esp + 4) then handle_invalid env k f
  else
    let cmd_line := load32 env (f.esp + 4)
    let k := k.emit (.deref (f.esp + 4))
    if is_invalid env cmd_line then handle_invalid env k f
    else
      let result := env.process_execute cmd_line
      let k := k.emit (.process_execute cmd_line)
      if env.child_found then
        let k := k.emit (.sema_down_exec result)
        ret_eax k f (to_uint32 (if !env.load_success then -1 else result))
      else ret_eax k f (to_uint32 result)

/-- The handler `handle_wait`. The pid word is loaded with no check. -/
def handle_wait (env : Env) (k : Kernel) (f : intr_frame) : Result :=
  let pid := to_int (load32 env (f.esp + 4))
  let k := k.emit (.deref (f.esp + 4))
  ret_eax (k.emit (.process_wait pid)) f (to_uint32 (env.process_wait pid))

/-- Modelled from the spec: the syscall numbers of lib/syscall-nr.h are not under
src/; the values are those of the Pintos enumeration, in the order of the spec's
syscall table. -/
def SYS_HALT : Int := 0
/-- Modelled from the spec: see `SYS_HALT`. -/
def SYS_EXIT : Int := 1
/-- Modelled from the spec: see `SYS_HALT`. -/
def SYS_EXEC : Int := 2
/-- Modelled from the spec: see `SYS_HALT`. -/
def SYS_WAIT : Int := 3
/-- Modelled from the spec: see `SYS_HALT`. -/
def SYS_CREATE : Int := 4
/-- Modelled from the spec: see `SYS_HALT`. -/
def SYS_REMOVE : Int := 5
/-- Modelled from the spec: see `SYS_HALT`. -/
def SYS_OPEN : Int := 6
/-- Modelled from the spec: see `SYS_HALT`. -/
def SYS_FILESIZE : Int := 7
/-- Modelled from the spec: see `SYS_HALT`. -/
def SYS_READ : Int := 8
/-- Modelled from the spec: see `SYS_HALT`. -/
def SYS_WRITE : Int := 9
/-- Modelled from the spec: see `SYS_HALT`. -/
def SYS_CLOSE : Int := 12

/-- The function `syscall_handler`. -/
def syscall_handler (env : Env) (k : Kernel) (f : intr_frame) : Result :=
  if is_invalid env f.esp then handle_invalid env k f
  else
    let syscall_number := to_int (load32 env f.esp)
    let k := k.emit (.deref f.esp)
    if syscall_number = SYS_EXIT then handle_exit env k f
    else if syscall_number = SYS_WRITE then handle_write env k f
    else if syscall_number = SYS_HALT then handle_halt env k f
    else if syscall_number = SYS_CREATE then handle_create env k f
    else if syscall_number = SYS_OPEN then handle_open env k f
    else if syscall_number = SYS_REMOVE then handle_remove env k f
    else if syscall_number = SYS_CLOSE then handle_close env k f
    else if syscall_number = SYS_READ then handle_read env k f
    else if syscall_number = SYS_FILESIZE then handle_filesize env k f
    else if syscall_number = SYS_EXEC then handle_exec env k f
    else if syscall_number = SYS_WAIT then handle_wait env k f
    else { kernel := k, frame := f, status := .returned }

/-! ## Reachable registry states -/

/-- The descriptors of a list of handles, in list order. -/
def fds (l : List file) : List Int := l.map file.fd

/-- The result of `filesys_open` is a newly allocated `struct file`: its address is
that of no handle linked into any list. -/
def fresh_open (env : Env) (k : Kernel) : Prop :=
  ∀ name p, env.filesys_open name = some p →
    (∀ h ∈ k.file_list, h.ptr ≠ p) ∧ ∀ t, ∀ h ∈ k.thread_file_list t, h.ptr ≠ p

/-- The kernel states reached from `syscall_init` by `open` and `close` system
calls of any threads, with any trap frames and collaborators. -/
inductive Reachable : Kernel → Prop where
  | init : Reachable syscall_init
  | open (env : Env) (f : intr_frame) {k : Kernel} :
      Reachable k → fresh_open env k → Reachable (handle_open env k f).kernel
  | close (env : Env) (f : intr_frame) {k : Kernel} :
      Reachable k → Reachable (handle_close env k f).kernel

/-- The global list is in strictly ascending descriptor order and starts above 1. -/
def registry_sorted (l : List file) : Prop := List.Chain (· < ·) (1 : Int) (fds l)

/-- The value `d` is the smallest integer greater than 1 that is not in `used`. -/
def least_free (used : List Int) (d : Int) : Prop :=
  1 < d ∧ d ∉ used ∧ ∀ m : Int, 1 < m → m ∉ used → d ≤ m

/-- The registry invariant of reachable states: the global list is sorted, every
handle of a thread's own list is linked into the global list, no descriptor is in
the lists of two threads, and no thread's list holds a descriptor twice. -/
structure registry_inv (k : Kernel) : Prop where
  sorted : registry_sorted k.file_list
  sub : ∀ t, ∀ h ∈ k.thread_file_list t, h ∈ k.file_list
  disj : ∀ t t2 h h2, h ∈ k.thread_file_list t → h2 ∈ k.thread_file_list t2 →
    h.fd = h2.fd → t = t2
  own_nodup : ∀ t, (fds (k.thread_file_list t)).Nodup

/-! ## Swap device manager -/

/-- Modelled from the spec: `DISK_SECTOR_SIZE` of devices/disk.h is not under src/
("one virtual page per slot, eight consecutive sectors"): 512 bytes. -/
def DISK_SECTOR_SIZE : Nat := 512

/-- Modelled from the spec: the disk driver is not under src/ ("raw block-device
read/write by (device-id, sector-index)"). A disk is its size in sectors and the byte
stored at each offset of each sector. -/
structure disk where
  size : Nat
  data : Nat → Nat → Nat

/-- Modelled from the spec: `disk_write (d, sec_no, buffer)` of the disk driver, not
under src/: the sector takes the `DISK_SECTOR_SIZE` bytes of memory at `buffer`. -/
def disk_write (d : disk) (sec_no : Nat) (mem : Nat → Nat) (buffer : Nat) : disk :=
  { d with data := fun s o =>
      if s = sec_no ∧ o < DISK_SECTOR_SIZE then mem (buffer + o) else d.data s o }

/-- Modelled from the spec: `disk_read (d, sec_no, buffer)` of the disk driver, not
under src/: the `DISK_SECTOR_SIZE` bytes of memory at `buffer` take the sector. -/
def disk_read (d : disk) (sec_no : Nat) (mem : Nat → Nat) (buffer : Nat) : Nat → Nat :=
  fun a => if buffer ≤ a ∧ a < buffer + DISK_SECTOR_SIZE then d.data sec_no (a - buffer)
    else mem a

/-- A swap slot (`struct swap_entry`). -/
structure swap_entry where
  is_used : Bool
  first_sec_no : Nat
deriving DecidableEq, Repr

/-- Modelled from the spec: the tags of `fault_case` are declared in vm/page.h, not
under src/. The spec lists three backing states, "zero-fill-pending, swapped-out,
resident"; swap.c names the first two `CASE_ZERO` and `CASE_SWAP` and never writes
the third, called `CASE_RESIDENT` here. -/
inductive fault_case_tag where
  | CASE_ZERO
  | CASE_SWAP
  | CASE_RESIDENT
deriving DecidableEq, Repr

/-- The fields of `struct sup_page_entry` that swap.c uses. `kpage` is `none` for
`NULL`; `swap_address` points to a slot of `swap_table`, given by its position. -/
structure sup_page_entry where
  upage : Nat
  kpage : Option Nat
  fault_case : fault_case_tag
  swap_address : Option Nat
deriving DecidableEq, Repr

/-- The fields of `struct frame_entry` that swap.c uses. -/
structure frame_entry where
  kpage : Nat
  upage : Nat
  using_thread : Nat
deriving DecidableEq, Repr

/-- The state swap.c works on: the disk `disk_get (1,1)` (`none` for `NULL`), the
slot table, the supplemental page tables by thread and user page, kernel memory by
byte address, the page directories by thread and user page, and the pages and frame
entries handed to `palloc_free_page` and `free`. -/
structure VM where
  swap_disk : Option disk
  swap_table : List swap_entry
  sup_page_table : Nat → Nat → Option sup_page_entry
  mem : Nat → Nat
  pagedir : Nat → Nat → Option (Nat × Bool)
  palloc_freed : List Nat
  freed_frames : List frame_entry

/-- The loop of `swap_init`: one Free slot per step of 8 sectors while `i` is below
the disk size. `fuel` bounds the number of iterations; `size` iterations always
suffice. Sector numbers of a Pintos disk stay far below `2^32`, so `i += 8` does not
wrap. -/
def swap_init_loop (size : Nat) : Nat → Nat → List swap_entry → List swap_entry
  | 0, _, tbl => tbl
  | fuel + 1, i, tbl =>
    if i < size then swap_init_loop size fuel (i + 8) (tbl ++ [⟨false, i⟩]) else tbl

/-- The function `swap_init`. `disk_size` needs the disk: without one there is no
result. -/
def swap_init (s : VM) : Option VM :=
  match s.swap_disk with
  | none => none
  | some d => some { s with swap_table := swap_init_loop d.size d.size 0 [] }

/-- The scan of `swap_out` for the first slot with `is_used` false: its position in
`swap_table` and its `first_sec_no`. -/
def find_free_slot : List swap_entry → Option (Nat × Nat)
  | [] => none
  | se :: rest =>
    if !se.is_used then some (0, se.first_sec_no)
    else (find_free_slot rest).map (fun r => (r.1 + 1, r.2))

/-- The assignment `se->is_used = b` for the slot at position `i`. -/
def set_used : List swap_entry → Nat → Bool → List swap_entry
  | [], _, _ => []
  | se :: rest, 0, b => { se with is_used := b } :: rest
  | se :: rest, i + 1, b => se :: set_used rest i b

/-- The eight `disk_write` calls of `swap_out`. -/
def write_sectors (d : disk) (first_sec_no : Nat) (mem : Nat → Nat) (kpage : Nat) : disk :=
  (List.range 8).foldl
    (fun d i => disk_write d (first_sec_no + i) mem (kpage + i * DISK_SECTOR_SIZE)) d

/-- The eight `disk_read` calls of `swap_in`. -/
def read_sectors (d : disk) (first_sec_no : Nat) (mem : Nat → Nat) (kpage : Nat) : Nat → Nat :=
  (List.range 8).foldl
    (fun m i => disk_read d (first_sec_no + i) m (kpage + i * DISK_SECTOR_SIZE)) mem

/-- Store through a `struct sup_page_entry *`. -/
def set_entry (spt : Nat → Nat → Option sup_page_entry) (t u : Nat) (e : sup_page_entry) :
    Nat → Nat → Option sup_page_entry :=
  fun t2 u2 => if t2 = t ∧ u2 = u then some e else spt t2 u2

/-- The function `swap_out (f)`. The result is `none` when `sup_page_table_lookup`
gives `NULL`, which the function dereferences. -/
def swap_out (s : VM) (f : frame_entry) : Option VM :=
  match s.swap_disk with
  | none => some s
  | some d =>
    match s.sup_page_table f.using_thread f.upage with
    | none => none
    | some sup_pte =>
      match find_free_slot s.swap_table with
      | some (i, first_sec_no) =>
        some { s with
          swap_disk := some (write_sectors d first_sec_no s.mem f.kpage),
          swap_table := set_used s.swap_table i true,
          sup_page_table := set_entry s.sup_page_table f.using_thread f.upage
            { sup_pte with swap_address := some i, fault_case := .CASE_SWAP, kpage := none },
          palloc_freed := s.palloc_freed ++ [f.kpage],
          freed_frames := s.freed_frames ++ [f] }
      | none =>
        some { s with
          sup_page_table := set_entry s.sup_page_table f.using_thread f.upage
            { sup_pte with kpage := none },
          palloc_freed := s.palloc_freed ++ [f.kpage],
          freed_frames := s.freed_frames ++ [f] }

/-- Modelled from the spec: `frame_table_allocator` is not under src/ ("allocate a
fresh physical frame (this may recursively trigger `swap_out` on a different page if
no frames are free)"). Which frame it evicts, if any, and which page it hands out
are given from outside. -/
def frame_table_allocator (s : VM) (victim : Option frame_entry) (kpage : Nat) :
    Option (VM × Nat) :=
  match victim with
  | none => some (s, kpage)
  | some v => (swap_out s v).map (fun s1 => (s1, kpage))

/-- Modelled from the spec: `pagedir_set_page` is not under src/ ("page-table get/set
mapping by virtual address"): it maps `upage` to `kpage` in the directory of `t`. -/
def pagedir_set_page (pd : Nat → Nat → Option (Nat × Bool)) (t upage kpage : Nat)
    (writable : Bool) : Nat → Nat → Option (Nat × Bool) :=
  fun t2 u2 => if t2 = t ∧ u2 = upage then some (kpage, writable) else pd t2 u2

/-- The part of `swap_in` after the frame allocation. `sup_pte` is the entry of
thread `t` for user page `u`. The result is `none` when `sup_pte` or its
`swap_address` is not a valid pointer. -/
def swap_in_body (s : VM) (cur t u : Nat) (writable : Bool) (kpage : Nat) : Option VM :=
  match s.swap_disk with
  | none => some s
  | some d =>
    match s.sup_page_table t u with
    | none => none
    | some sup_pte =>
      match sup_pte.swap_address with
      | none => none
      | some i =>
        match s.swap_table.get? i with
        | none => none
        | some se =>
          some { s with
            mem := read_sectors d se.first_sec_no s.mem kpage,
            swap_table := set_used s.swap_table i false,
            pagedir := pagedir_set_page s.pagedir cur sup_pte.upage kpage writable,
            sup_page_table := set_entry s.sup_page_table t u
              { sup_pte with fault_case := .CASE_ZERO } }

/-- The function `swap_in (sup_pte, writable)`, run by thread `cur`. -/
def swap_in (s : VM) (cur t u : Nat) (writable : Bool) (victim : Option frame_entry)
    (kpage : Nat) : Option VM :=
  match frame_table_allocator s victim kpage with
  | none => none
  | some (s1, kpage) => swap_in_body s1 cur t u writable kpage

/-- The frame `f` belongs to an entry that exists and is not swapped out. -/
def resident_frame (s : VM) (f : frame_entry) : Prop :=
  ∃ e, s.sup_page_table f.using_thread f.upage = some e ∧ e.fault_case ≠ .CASE_SWAP

/-- The entry of thread `t` for user page `u` exists and is in the swapped-out state. -/
def swapped_out (s : VM) (t u : Nat) : Prop :=
  ∃ e, s.sup_page_table t u = some e ∧ e.fault_case = .CASE_SWAP

/-- One step of the swap subsystem that leaves the entries in `avoid` alone: a call
of `swap_out` on a resident frame, a call of `swap_in` on a swapped-out entry (its
frame allocation evicting a resident frame or none), stores to memory by running
code, or the page-fault and loading code outside swap.c creating or rewriting an
entry that is not swapped out and stays so. -/
inductive SwapStep (avoid : Nat → Nat → Prop) : VM → VM → Prop where
  | out (f : frame_entry) {s s2 : VM} :
      resident_frame s f → ¬ avoid f.using_thread f.upage → swap_out s f = some s2 →
      SwapStep avoid s s2
  | swap_in (cur t u : Nat) (writable : Bool) (victim : Option frame_entry) (kpage : Nat)
      {s s2 : VM} :
      swapped_out s t u → ¬ avoid t u →
      (∀ v, victim = some v → resident_frame s v ∧ ¬ avoid v.using_thread v.upage) →
      swap_in s cur t u writable victim kpage = some s2 →
      SwapStep avoid s s2
  | store (m : Nat → Nat) {s : VM} : SwapStep avoid s { s with mem := m }
  | install (t u : Nat) (e : sup_page_entry) {s : VM} :
      (∀ e0, s.sup_page_table t u = some e0 → e0.fault_case ≠ .CASE_SWAP) →
      e.fault_case ≠ .CASE_SWAP →
      SwapStep avoid s { s with sup_page_table := set_entry s.sup_page_table t u e }

/-- The states reached from `swap_init`, run while no entry is swapped out, by calls
of `swap_out` on resident frames and of `swap_in` on swapped-out entries. -/
inductive SwapReachable : VM → Prop where
  | init (s0 : VM) {s : VM} :
      (∀ t u e, s0.sup_page_table t u = some e → e.fault_case ≠ .CASE_SWAP) →
      swap_init s0 = some s → SwapReachable s
  | step {s s2 : VM} : SwapReachable s → SwapStep (fun _ _ => False) s s2 → SwapReachable s2

/-- The slot invariant: there is a swap disk, slot `k` starts at sector `8 * k`,
every swapped-out entry records a slot that is in use, and no two swapped-out
entries record the same slot. -/
structure swap_inv (s : VM) : Prop where
  has_disk : s.swap_disk ≠ none
  sectors : ∀ i se, s.swap_table.get? i = some se → se.first_sec_no = 8 * i
  in_use : ∀ t u e, s.sup_page_table t u = some e → e.fault_case = .CASE_SWAP →
    ∃ i se, e.swap_address = some i ∧ s.swap_table.get? i = some se ∧ se.is_used = true
  exclusive : ∀ t u e t2 u2 e2, s.sup_page_table t u = some e →
    s.sup_page_table t2 u2 = some e2 → e.fault_case = .CASE_SWAP →
    e2.fault_case = .CASE_SWAP → e.swap_address = e2.swap_address → t = t2 ∧ u = u2

/-- The entry of thread `t` for user page `u` is swapped out to slot `i`, and the
eight sectors of that slot hold the 4096 bytes `content`. -/
def slot_holds (s : VM) (t u i : Nat) (content : Nat → Nat) : Prop :=
  (∃ e, s.sup_page_table t u = some e ∧ e.fault_case = .CASE_SWAP ∧ e.swap_address = some i) ∧
  ∃ d, s.swap_disk = some d ∧
    ∀ off, off < 4096 → d.data (8 * i + off / 512) (off % 512) = content off

/-! ## Sample inputs -/

/-- A thread `cur` whose user pages are all mapped, whose stack words all hold
`word`, and for which `filesys_open` yields `fp`. -/
def sample_env (cur word : Nat) (fp : Option Nat) : Env :=
  { cur := cur, mem := fun _ => word, mapped := fun _ => true, strlen := fun _ => 5,
    filesys_open := fun _ => fp, filesys_create := fun _ _ => true,
    file_length := fun _ => 7, file_read := fun _ _ n => n, file_write := fun _ _ n => n,
    process_execute := fun _ => 3, child_found := true, load_success := true,
    process_wait := fun _ => 0 }

/-- A trap frame with the stack pointer inside a user page and 0 in `eax`. -/
def sample_frame : intr_frame := { esp := 0xbfffff00, eax := 0 }

/-- Thread 1 has opened a file (handle at address 100). -/
def sample_kernel1 : Kernel :=
  (handle_open (sample_env 1 0x8048000 (some 100)) syscall_init sample_frame).kernel

/-- Thread 1 has opened one file, then thread 2 another (handle at address 200). -/
def sample_kernel2 : Kernel :=
  (handle_open (sample_env 2 0x8048000 (some 200)) sample_kernel1 sample_frame).kernel

/-- A thread `cur` whose user pages are all mapped and whose stack holds the words
`w0`, `w1`, `w2`, `w3` at `esp`, `esp + 4`, `esp + 8` and from `esp + 12` on; every
string has length `len`, and `filesys_open` yields `fp`. -/
def stack_env (cur esp w0 w1 w2 w3 len : Nat) (fp : Option Nat) : Env :=
  { cur := cur,
    mem := fun a => if a = esp then w0 else if a = esp + 4 then w1
      else if a = esp + 8 then w2 else w3,
    mapped := fun _ => true, strlen := fun _ => len,
    filesys_open := fun _ => fp, filesys_create := fun _ _ => true,
    file_length := fun _ => 7, file_read := fun _ _ n => n, file_write := fun _ _ n => n,
    process_execute := fun _ => 3, child_found := true, load_success := true,
    process_wait := fun _ => 0 }

/-- A trap frame whose stack pointer is the last word below `PHYS_BASE`. -/
def top_frame : intr_frame := { esp := 0xbffffffc, eax := 0 }

/-- The events that are calls of `file_length`, `file_read` or `file_write`. -/
def Event.is_file_call : Event → Bool
  | .file_length _ => true
  | .file_read _ _ _ => true
  | .file_write _ _ _ => true
  | _ => false

/-- The events that are calls of `filesys_create`. -/
def Event.is_create_call : Event → Bool
  | .filesys_create _ _ => true
  | _ => false

/-- A machine before `swap_init`: a swap disk of 16 sectors, and thread 1 with one
page at `0x8048000` that is not swapped out, in the frame at `0xc0100000`. -/
def sample_vm0 : VM :=
  { swap_disk := some { size := 16, data := fun _ _ => 0 },
    swap_table := [],
    sup_page_table := fun t u =>
      if t = 1 ∧ u = 0x8048000 then some ⟨0x8048000, some 0xc0100000, .CASE_ZERO, none⟩
      else none,
    mem := fun a => a % 251,
    pagedir := fun _ _ => none,
    palloc_freed := [],
    freed_frames := [] }

/-- The state `swap_init` leaves on `sample_vm0`: two Free slots. -/
def sample_vm : VM := { sample_vm0 with swap_table := swap_init_loop 16 16 0 [] }

/-- The frame of thread 1 for its page at `0x8048000`. -/
def sample_frame_entry : frame_entry := { kpage := 0xc0100000, upage := 0x8048000, using_thread := 1 }

/-- The state after `swap_out (sample_frame_entry)` on `sample_vm`. -/
def sample_swapped : VM := (swap_out sample_vm sample_frame_entry).getD sample_vm

/-- A machine before `swap_init` whose swap disk has 12 sectors. -/
def sample_vm12 : VM := { sample_vm0 with swap_disk := some { size := 12, data := fun _ _ => 0 } }

/-- A state whose only slot is in use, with the page of thread 1 resident. -/
def sample_full_vm : VM := { sample_vm0 with swap_table := [⟨true, 0⟩] }

/-! ## Lemmas on the registry lists -/

theorem chain_lt_all {a : Int} {l : List Int} (h : List.Chain (· < ·) a l) :
    ∀ x ∈ l, a < x := by
  have hp := (List.chain_iff_pairwise).1 h
  exact (List.pairwise_cons.1 hp).1

theorem chain_lt_nodup {a : Int} {l : List Int} (h : List.Chain (· < ·) a l) : l.Nodup := by
  have hp := (List.chain_iff_pairwise).1 h
  exact (List.pairwise_cons.1 hp).2.imp (fun hab => ne_of_lt hab)

theorem list_insert_ordered_eq_append (l : List file) (e : file)
    (h : ∀ x ∈ l, x.fd ≤ e.fd) : list_insert_ordered l e = l ++ [e] := by
  induction l with
  | nil => rfl
  | cons x l ih =>
    have hx : ¬ e.fd < x.fd := not_lt.2 (h x (List.mem_cons_self _ _))
    simp only [list_insert_ordered, hx, if_false, List.cons_append]
    rw [ih (fun y hy => h y (List.mem_cons_of_mem _ hy))]

theorem list_insert_ordered_perm (l : List file) (e : file) :
    (list_insert_ordered l e).Perm (e :: l) := by
  induction l with
  | nil => exact List.Perm.refl _
  | cons x l ih =>
    unfold list_insert_ordered
    split
    · exact List.Perm.refl _
    · exact (List.Perm.cons x ih).trans (List.Perm.swap e x l)

theorem list_insert_ordered_chain (l : List file) (e : file) :
    ∀ a : Int, List.Chain (· < ·) a (fds l) → a < e.fd → e.fd ∉ fds l →
      List.Chain (· < ·) a (fds (list_insert_ordered l e)) := by
  induction l with
  | nil =>
    intro a _ hae _
    simp [list_insert_ordered, fds, hae]
  | cons x l ih =>
    intro a hc hae hnot
    simp only [fds, List.map_cons, List.chain_cons] at hc
    simp only [fds, List.map_cons, List.mem_cons, not_or] at hnot
    unfold list_insert_ordered
    split
    · rename_i hlt
      simp only [fds, List.map_cons, List.chain_cons]
      exact ⟨hae, hlt, hc.2⟩
    · rename_i hnlt
      simp only [fds, List.map_cons, List.chain_cons]
      have hxe : x.fd < e.fd := lt_of_le_of_ne (not_lt.1 hnlt) (fun h => hnot.1 h.symm)
      exact ⟨hc.1, ih x.fd hc.2 hxe hnot.2⟩

/-- The descriptor the loop of `give_file_descriptor` returns is the smallest one
above `fd_temp` that the rest of the list does not hold. -/
theorem give_file_descriptor_loop_fst (file_list : List file) (p : Nat) :
    ∀ (rest : List file) (t : Int), List.Chain (· < ·) t (fds rest) →
      t < (give_file_descriptor_loop file_list p rest t).1 ∧
      (give_file_descriptor_loop file_list p rest t).1 ∉ fds rest ∧
      ∀ m : Int, t < m → m ∉ fds rest → (give_file_descriptor_loop file_list p rest t).1 ≤ m := by
  intro rest
  induction rest with
  | nil =>
    intro t _
    simp only [give_file_descriptor_loop, fds, List.map_nil, List.not_mem_nil, not_false_eq_true,
      true_and]
    exact ⟨by omega, fun m hm _ => by omega⟩
  | cons f rest ih =>
    intro t hc
    have hc2 : t < f.fd ∧ List.Chain (· < ·) f.fd (fds rest) := by
      simpa [fds, List.chain_cons] using hc
    have hall := chain_lt_all hc2.2
    unfold give_file_descriptor_loop
    split
    · rename_i hgt
      refine ⟨by omega, ?_, fun m hm _ => by omega⟩
      simp only [fds, List.map_cons, List.mem_cons, not_or]
      refine ⟨by omega, fun hmem => ?_⟩
      have := hall _ hmem
      omega
    · rename_i hngt
      have hfd : f.fd = t + 1 := by omega
      obtain ⟨h1, h2, h3⟩ := ih f.fd hc2.2
      refine ⟨by omega, ?_, ?_⟩
      · simp only [fds, List.map_cons, List.mem_cons, not_or]
        exact ⟨by omega, h2⟩
      · intro m hm hmn
        simp only [fds, List.map_cons, List.mem_cons, not_or] at hmn
        have hne : m ≠ f.fd := hmn.1
        exact h3 m (by omega) hmn.2

/-- The list the loop of `give_file_descriptor` leaves is the old list with the new
handle inserted in descriptor order. -/
theorem give_file_descriptor_loop_snd (file_list : List file) (p : Nat) :
    ∀ (rest : List file) (t : Int) (pre : List file), file_list = pre ++ rest →
      (∀ x ∈ pre, x.fd ≤ t) → List.Chain (· < ·) t (fds rest) →
      (give_file_descriptor_loop file_list p rest t).2 =
        list_insert_ordered file_list ⟨p, (give_file_descriptor_loop file_list p rest t).1⟩ := by
  intro rest
  induction rest with
  | nil =>
    intro t pre hpre hle _
    simp only [give_file_descriptor_loop]
    rw [list_insert_ordered_eq_append]
    intro x hx
    rw [hpre, List.append_nil] at hx
    have := hle x hx
    show x.fd ≤ t + 1
    omega
  | cons f rest ih =>
    intro t pre hpre hle hc
    have hc2 : t < f.fd ∧ List.Chain (· < ·) f.fd (fds rest) := by
      simpa [fds, List.chain_cons] using hc
    unfold give_file_descriptor_loop
    split
    · rfl
    · refine ih f.fd (pre ++ [f]) (by simp [hpre]) ?_ hc2.2
      intro x hx
      rcases List.mem_append.1 hx with h | h
      · have := hle x h
        omega
      · simp only [List.mem_singleton] at h
        rw [h]

theorem give_file_descriptor_spec (l : List file) (p : Nat) (h : registry_sorted l) :
    least_free (fds l) (give_file_descriptor l p).1 ∧
    (give_file_descriptor l p).2 = list_insert_ordered l ⟨p, (give_file_descriptor l p).1⟩ := by
  obtain ⟨h1, h2, h3⟩ := give_file_descriptor_loop_fst l p l 1 h
  exact ⟨⟨h1, h2, h3⟩,
    give_file_descriptor_loop_snd l p l 1 [] rfl (fun _ hx => absurd hx (List.not_mem_nil _)) h⟩

theorem give_file_descriptor_sorted (l : List file) (p : Nat) (h : registry_sorted l) :
    registry_sorted (give_file_descriptor l p).2 := by
  obtain ⟨⟨h1, h2, _⟩, h4⟩ := give_file_descriptor_spec l p h
  rw [h4]
  exact list_insert_ordered_chain l _ 1 h h1 h2

theorem give_file_descriptor_mem (l : List file) (p : Nat) (h : registry_sorted l) (x : file) :
    x ∈ (give_file_descriptor l p).2 ↔ x = ⟨p, (give_file_descriptor l p).1⟩ ∨ x ∈ l := by
  rw [(give_file_descriptor_spec l p h).2, (list_insert_ordered_perm l _).mem_iff]
  simp

theorem remove_first_fd_none (l : List file) (fd : Int) :
    remove_first_fd l fd = none ↔ fd ∉ fds l := by
  induction l with
  | nil => simp [remove_first_fd, fds]
  | cons x l ih =>
    unfold remove_first_fd
    split
    · rename_i h
      simp [fds, h]
    · rename_i h
      simp only [Option.map_eq_none', ih, fds, List.map_cons, List.mem_cons, not_or]
      exact ⟨fun h2 => ⟨fun h3 => h h3.symm, h2⟩, fun h2 => h2.2⟩

theorem remove_first_fd_sublist (l : List file) (fd : Int) :
    ∀ l2, remove_first_fd l fd = some l2 → l2.Sublist l := by
  induction l with
  | nil => intro l2 h; simp [remove_first_fd] at h
  | cons x l ih =>
    intro l2 h
    unfold remove_first_fd at h
    split at h
    · simp only [Option.some.injEq] at h
      subst h
      exact List.sublist_cons_self _ _
    · simp only [Option.map_eq_some'] at h
      obtain ⟨l3, h3, rfl⟩ := h
      exact (ih l3 h3).cons₂ x

theorem remove_first_fd_mem (l : List file) (fd : Int) (hn : (fds l).Nodup) :
    ∀ l2, remove_first_fd l fd = some l2 → ∀ x, x ∈ l2 ↔ x ∈ l ∧ x.fd ≠ fd := by
  induction l with
  | nil => intro l2 h; simp [remove_first_fd] at h
  | cons y l ih =>
    intro l2 h x
    have hn2 : y.fd ∉ fds l ∧ (fds l).Nodup := by simpa [fds] using hn
    unfold remove_first_fd at h
    split at h
    · rename_i hy
      simp only [Option.some.injEq] at h
      subst h
      constructor
      · intro hx
        refine ⟨List.mem_cons_of_mem _ hx, fun hxfd => hn2.1 ?_⟩
        rw [hy, ← hxfd]
        exact List.mem_map_of_mem _ hx
      · rintro ⟨hx, hxfd⟩
        rcases List.mem_cons.1 hx with h1 | h1
        · exact absurd (h1 ▸ hy) hxfd
        · exact h1
    · rename_i hy
      simp only [Option.map_eq_some'] at h
      obtain ⟨l3, h3, rfl⟩ := h
      have := ih hn2.2 l3 h3 x
      simp only [List.mem_cons, this]
      constructor
      · rintro (h1 | h1)
        · exact ⟨Or.inl h1, h1 ▸ hy⟩
        · exact ⟨Or.inr h1.1, h1.2⟩
      · rintro ⟨h1 | h1, h2⟩
        · exact Or.inl h1
        · exact Or.inr ⟨h1, h2⟩

theorem thread_has_file_iff (l : List file) (fd : Int) :
    thread_has_file l fd = true ↔ fd ∈ fds l := by
  induction l with
  | nil => simp [thread_has_file, fds]
  | cons x l ih =>
    unfold thread_has_file
    split
    · rename_i h
      simp [fds, h]
    · rename_i h
      simp only [ih, fds, List.map_cons, List.mem_cons]
      exact ⟨fun h2 => Or.inr h2, fun h2 => h2.resolve_left (fun h3 => h h3.symm)⟩

theorem find_file_by_fd_some (l : List file) (fd : Int) (x : file) :
    find_file_by_fd l fd = some x → x ∈ l ∧ x.fd = fd := by
  induction l with
  | nil => intro h; simp [find_file_by_fd] at h
  | cons y l ih =>
    intro h
    unfold find_file_by_fd at h
    split at h
    · rename_i hy
      simp only [Option.some.injEq] at h
      subst h
      exact ⟨List.mem_cons_self _ _, hy⟩
    · exact ⟨List.mem_cons_of_mem _ (ih h).1, (ih h).2⟩

theorem find_file_by_fd_none (l : List file) (fd : Int) :
    find_file_by_fd l fd = none ↔ fd ∉ fds l := by
  induction l with
  | nil => simp [find_file_by_fd, fds]
  | cons y l ih =>
    unfold find_file_by_fd
    split
    · rename_i hy
      simp [fds, hy]
    · rename_i hy
      simp only [ih, fds, List.map_cons, List.mem_cons, not_or]
      exact ⟨fun h2 => ⟨fun h3 => hy h3.symm, h2⟩, fun h2 => h2.2⟩

/-- What `handle_open` does to the two lists: nothing, or one new handle with the
descriptor `give_file_descriptor` chose, linked into both. -/
theorem handle_open_lists (env : Env) (k : Kernel) (f : intr_frame) :
    ((handle_open env k f).kernel.file_list = k.file_list ∧
      (handle_open env k f).kernel.thread_file_list = k.thread_file_list) ∨
    ∃ p, (handle_open env k f).kernel.file_list = (give_file_descriptor k.file_list p).2 ∧
      (handle_open env k f).kernel.thread_file_list =
        set_at k.thread_file_list env.cur
          (k.thread_file_list env.cur ++ [⟨p, (give_file_descriptor k.file_list p).1⟩]) := by
  unfold handle_open
  split
  · left; exact ⟨rfl, rfl⟩
  · dsimp only
    split
    · left; exact ⟨rfl, rfl⟩
    · split
      · rename_i p _
        right; exact ⟨p, rfl, rfl⟩
      · left; exact ⟨rfl, rfl⟩

/-- What `handle_close` does to the two lists. -/
theorem handle_close_lists (env : Env) (k : Kernel) (f : intr_frame) :
    (remove_first_fd (k.thread_file_list env.cur) (to_int (load32 env (f.esp + 4))) = none ∧
      (handle_close env k f).kernel.file_list = k.file_list ∧
      (handle_close env k f).kernel.thread_file_list = k.thread_file_list ∧
      (handle_close env k f).status = .exited) ∨
    ∃ own, remove_first_fd (k.thread_file_list env.cur) (to_int (load32 env (f.esp + 4)))
        = some own ∧
      (handle_close env k f).kernel.file_list =
        (remove_first_fd k.file_list (to_int (load32 env (f.esp + 4)))).getD k.file_list ∧
      (handle_close env k f).kernel.thread_file_list = set_at k.thread_file_list env.cur own ∧
      (handle_close env k f).status = .returned := by
  cases h : remove_first_fd (k.thread_file_list env.cur) (to_int (load32 env (f.esp + 4))) with
  | none => left; simp [handle_close, Kernel.emit, h]
  | some own => right; simp [handle_close, Kernel.emit, h]

theorem registry_sorted_sublist {l l2 : List file} (hs : l2.Sublist l)
    (h : registry_sorted l) : registry_sorted l2 := by
  unfold registry_sorted at *
  rw [List.chain_iff_pairwise] at *
  exact h.sublist ((hs.map file.fd).cons₂ 1)

theorem registry_inv_init : registry_inv syscall_init :=
  { sorted := List.Chain.nil
    sub := fun _ _ h => absurd h (List.not_mem_nil _)
    disj := fun _ _ _ _ h => absurd h (List.not_mem_nil _)
    own_nodup := fun _ => List.nodup_nil }

theorem registry_inv_open (env : Env) (k : Kernel) (f : intr_frame) (h : registry_inv k) :
    registry_inv (handle_open env k f).kernel := by
  rcases handle_open_lists env k f with ⟨h1, h2⟩ | ⟨p, h1, h2⟩
  · exact { sorted := h1 ▸ h.sorted
            sub := by rw [h1, h2]; exact h.sub
            disj := by rw [h2]; exact h.disj
            own_nodup := by rw [h2]; exact h.own_nodup }
  · obtain ⟨⟨_, hfree, _⟩, _⟩ := give_file_descriptor_spec k.file_list p h.sorted
    have hold : ∀ t, ∀ x ∈ k.thread_file_list t, x.fd ≠ (give_file_descriptor k.file_list p).1 := by
      intro t x hx hfd
      exact hfree (hfd ▸ List.mem_map_of_mem _ (h.sub t x hx))
    have hmem : ∀ t x, x ∈ set_at k.thread_file_list env.cur
          (k.thread_file_list env.cur ++ [⟨p, (give_file_descriptor k.file_list p).1⟩]) t →
        x ∈ k.thread_file_list t ∨
          (t = env.cur ∧ x = ⟨p, (give_file_descriptor k.file_list p).1⟩) := by
      intro t x hx
      unfold set_at at hx
      split at hx
      · rename_i ht
        rcases List.mem_append.1 hx with h3 | h3
        · left; rw [ht]; exact h3
        · right; exact ⟨ht, List.mem_singleton.1 h3⟩
      · left; exact hx
    refine { sorted := h1 ▸ give_file_descriptor_sorted _ _ h.sorted, sub := ?_, disj := ?_,
             own_nodup := ?_ }
    · intro t x hx
      rw [h2] at hx
      rw [h1, give_file_descriptor_mem _ _ h.sorted]
      rcases hmem t x hx with h3 | ⟨_, h3⟩
      · exact Or.inr (h.sub t x h3)
      · exact Or.inl h3
    · intro t t2 x x2 hx hx2 hfd
      rw [h2] at hx hx2
      rcases hmem t x hx with h3 | ⟨h3, h4⟩ <;> rcases hmem t2 x2 hx2 with h5 | ⟨h5, h6⟩
      · exact h.disj t t2 x x2 h3 h5 hfd
      · exact absurd (by rw [hfd, h6]) (hold t x h3)
      · exact absurd (by rw [← hfd, h4]) (hold t2 x2 h5)
      · rw [h3, h5]
    · intro t
      rw [h2]
      unfold set_at
      split
      · rw [fds, List.map_append, List.nodup_append]
        refine ⟨h.own_nodup env.cur, List.nodup_singleton _, ?_⟩
        intro a ha hb
        simp only [List.map_cons, List.map_nil, List.mem_singleton] at hb
        obtain ⟨x, hx, rfl⟩ := List.mem_map.1 ha
        exact hold env.cur x hx hb
      · exact h.own_nodup t

theorem registry_inv_close (env : Env) (k : Kernel) (f : intr_frame) (h : registry_inv k) :
    registry_inv (handle_close env k f).kernel := by
  rcases handle_close_lists env k f with ⟨_, h1, h2, _⟩ | ⟨own, hown, h1, h2, _⟩
  · exact { sorted := h1 ▸ h.sorted
            sub := by rw [h1, h2]; exact h.sub
            disj := by rw [h2]; exact h.disj
            own_nodup := by rw [h2]; exact h.own_nodup }
  · generalize to_int (load32 env (f.esp + 4)) = fd at hown h1
    have hownmem := remove_first_fd_mem _ fd (h.own_nodup env.cur) own hown
    have hin : fd ∈ fds (k.thread_file_list env.cur) := by
      by_contra hc
      rw [(remove_first_fd_none _ fd).2 hc] at hown
      exact Option.noConfusion hown
    obtain ⟨y, hy, hyfd⟩ := List.mem_map.1 hin
    have hgl : fd ∈ fds k.file_list := hyfd ▸ List.mem_map_of_mem _ (h.sub _ y hy)
    obtain ⟨fl2, hfl2⟩ : ∃ fl2, remove_first_fd k.file_list fd = some fl2 := by
      cases hc : remove_first_fd k.file_list fd with
      | none => exact absurd hgl ((remove_first_fd_none _ fd).1 hc)
      | some fl2 => exact ⟨fl2, rfl⟩
    rw [hfl2, Option.getD_some] at h1
    have hglmem := remove_first_fd_mem _ fd (chain_lt_nodup h.sorted) fl2 hfl2
    have hmem : ∀ t x, x ∈ set_at k.thread_file_list env.cur own t →
        x ∈ k.thread_file_list t ∧ x.fd ≠ fd := by
      intro t x hx
      unfold set_at at hx
      split at hx
      · rename_i ht
        rw [ht]
        exact (hownmem x).1 hx
      · rename_i ht
        refine ⟨hx, fun hfd => ht ?_⟩
        exact h.disj t env.cur x y hx hy (hfd.trans hyfd.symm)
    refine { sorted := h1 ▸ registry_sorted_sublist (remove_first_fd_sublist _ _ _ hfl2) h.sorted,
             sub := ?_, disj := ?_, own_nodup := ?_ }
    · intro t x hx
      rw [h2] at hx
      rw [h1, hglmem]
      exact ⟨h.sub t x (hmem t x hx).1, (hmem t x hx).2⟩
    · intro t t2 x x2 hx hx2 hfd
      rw [h2] at hx hx2
      exact h.disj t t2 x x2 (hmem t x hx).1 (hmem t2 x2 hx2).1 hfd
    · intro t
      rw [h2]
      unfold set_at
      split
      · exact ((remove_first_fd_sublist _ _ _ hown).map file.fd).nodup (h.own_nodup env.cur)
      · exact h.own_nodup t

theorem registry_inv_of_reachable {k : Kernel} (h : Reachable k) : registry_inv k := by
  induction h with
  | init => exact registry_inv_init
  | «open» env f _ _ ih => exact registry_inv_open env _ f ih
  | close env f _ ih => exact registry_inv_close env _ f ih

/-! ## Sample states are reachable -/

theorem sample_kernel1_lists :
    sample_kernel1.file_list = [⟨100, 2⟩] ∧
    sample_kernel1.thread_file_list = set_at (fun _ => []) 1 [⟨100, 2⟩] := by
  constructor
  · decide
  · rfl

theorem sample_kernel1_reachable : Reachable sample_kernel1 := by
  refine Reachable.open _ _ Reachable.init ?_
  intro name p _
  exact ⟨fun h hh => absurd hh (List.not_mem_nil _), fun t h hh => absurd hh (List.not_mem_nil _)⟩

theorem sample_kernel2_reachable : Reachable sample_kernel2 := by
  refine Reachable.open _ _ sample_kernel1_reachable ?_
  intro name p hp
  have hp2 : p = 200 := by
    simp only [sample_env, Option.some.injEq] at hp
    exact hp.symm
  subst hp2
  rw [sample_kernel1_lists.1, sample_kernel1_lists.2]
  refine ⟨by decide, fun t h hh => ?_⟩
  unfold set_at at hh
  split at hh
  · simp only [List.mem_singleton] at hh
    subst hh
    decide
  · exact absurd hh (List.not_mem_nil _)

/-! ## Claims on the open-file registry -/

/-- C1: in every state reached from the empty registry of `syscall_init` by open and
close system calls of any threads, no two handles of the global `file_list` carry
the same descriptor `fd`. -/
theorem registry_descriptors_unique (k : Kernel) (h : Reachable k) :
    List.Pairwise (fun a b : file => a.fd ≠ b.fd) k.file_list := by
  have hn : (fds k.file_list).Nodup := chain_lt_nodup (registry_inv_of_reachable h).sorted
  exact List.pairwise_map.1 hn

/-- Witness of C1 at the state after two opens by two threads. -/
theorem registry_descriptors_unique_witness :
    Reachable sample_kernel2 ∧
    List.Pairwise (fun a b : file => a.fd ≠ b.fd) sample_kernel2.file_list :=
  ⟨sample_kernel2_reachable, registry_descriptors_unique sample_kernel2 sample_kernel2_reachable⟩

/-- C2: in every reachable registry state `give_file_descriptor` returns the smallest
integer greater than 1 that is the descriptor of no handle in the registry, and the
new handle is linked into the registry with that value in its `fd`; on the empty
registry it returns 2; and after a close that returned, the next call again returns
the lowest free value, which is then at most the descriptor just closed. -/
theorem give_file_descriptor_least_free (k : Kernel) (h : Reachable k) (p : Nat) :
    least_free (fds k.file_list) (give_file_descriptor k.file_list p).1 ∧
    (give_file_descriptor k.file_list p).2.Perm
      (⟨p, (give_file_descriptor k.file_list p).1⟩ :: k.file_list) ∧
    give_file_descriptor syscall_init.file_list p = (2, [⟨p, 2⟩]) ∧
    ∀ (env : Env) (f : intr_frame), (handle_close env k f).status = .returned →
      least_free (fds (handle_close env k f).kernel.file_list)
        (give_file_descriptor (handle_close env k f).kernel.file_list p).1 ∧
      (give_file_descriptor (handle_close env k f).kernel.file_list p).1
        ≤ to_int (load32 env (f.esp + 4)) := by
  have hinv := registry_inv_of_reachable h
  obtain ⟨h1, h2⟩ := give_file_descriptor_spec k.file_list p hinv.sorted
  refine ⟨h1, ?_, rfl, ?_⟩
  · rw [h2]
    exact list_insert_ordered_perm _ _
  · intro env f hst
    have hinv2 := registry_inv_close env k f hinv
    have hlf := (give_file_descriptor_spec (handle_close env k f).kernel.file_list p
      hinv2.sorted).1
    refine ⟨hlf, ?_⟩
    rcases handle_close_lists env k f with ⟨_, _, _, h6⟩ | ⟨own, hown, h5, _, _⟩
    · rw [h6] at hst
      exact Status.noConfusion hst
    · generalize to_int (load32 env (f.esp + 4)) = fd at hown h5 ⊢
      have hin : fd ∈ fds (k.thread_file_list env.cur) := by
        by_contra hc
        rw [(remove_first_fd_none _ fd).2 hc] at hown
        exact Option.noConfusion hown
      obtain ⟨y, hy, hyfd⟩ := List.mem_map.1 hin
      have hgl : fd ∈ fds k.file_list := hyfd ▸ List.mem_map_of_mem _ (hinv.sub _ y hy)
      have hgt : 1 < fd := chain_lt_all hinv.sorted fd hgl
      refine hlf.2.2 fd hgt ?_
      rw [h5]
      cases hc : remove_first_fd k.file_list fd with
      | none => exact absurd hgl ((remove_first_fd_none _ fd).1 hc)
      | some fl2 =>
        rw [Option.getD_some]
        intro hmem
        obtain ⟨z, hz, hzfd⟩ := List.mem_map.1 hmem
        exact ((remove_first_fd_mem _ fd (chain_lt_nodup hinv.sorted) fl2 hc z).1 hz).2 hzfd

/-- Witness of C2 at the state after two opens by two threads. -/
theorem give_file_descriptor_least_free_witness :
    Reachable sample_kernel2 ∧
    least_free (fds sample_kernel2.file_list) (give_file_descriptor sample_kernel2.file_list 300).1 :=
  ⟨sample_kernel2_reachable,
    (give_file_descriptor_least_free sample_kernel2 sample_kernel2_reachable 300).1⟩

/-! ## Claims on the system-call handlers -/

/-- C3 (the code departs from the claim): with a valid stack pointer in the last
word below `PHYS_BASE`, the argument word at `esp + 4` lies at `PHYS_BASE` and fails
`is_invalid`; `handle_open` takes the `handle_invalid` path, but `handle_close`,
`handle_write`, `handle_read`, `handle_filesize` and `handle_wait`, reached through
`syscall_handler`, load the word all the same and return without killing the
thread. -/
theorem argument_word_read_unchecked :
    is_invalid (stack_env 1 0xbffffffc 12 2 0 0 5 none) top_frame.esp = false ∧
    is_invalid (stack_env 1 0xbffffffc 12 2 0 0 5 none) (top_frame.esp + 4) = true ∧
    (syscall_handler (stack_env 1 0xbffffffc 6 2 0 0 5 none) sample_kernel2 top_frame).status
      = .exited ∧
    (syscall_handler (stack_env 1 0xbffffffc 12 2 0 0 5 none) sample_kernel2 top_frame).status
      = .returned ∧
    (syscall_handler (stack_env 1 0xbffffffc 12 2 0 0 5 none) sample_kernel2 top_frame).kernel.trace
      = sample_kernel2.trace ++ [.deref 0xbffffffc, .deref 0xc0000000] ∧
    (syscall_handler (stack_env 1 0xbffffffc 12 2 0 0 5 none) sample_kernel2
      top_frame).kernel.is_killed 1 = false ∧
    (syscall_handler (stack_env 1 0xbffffffc 12 2 0 0 5 none) sample_kernel2
      top_frame).kernel.file_list = [⟨200, 3⟩] ∧
    (syscall_handler (stack_env 1 0xbffffffc 9 1 0x8048000 4 5 none) sample_kernel2
      top_frame).status = .returned ∧
    (syscall_handler (stack_env 1 0xbffffffc 9 1 0x8048000 4 5 none) sample_kernel2
      top_frame).kernel.trace
      = sample_kernel2.trace ++ [.deref 0xbffffffc, .deref 0xc0000008, .deref 0xc0000004,
          .deref 0xc0000000, .putbuf 0x8048000 4] ∧
    (syscall_handler (stack_env 1 0xbffffffc 8 2 0x8048000 4 5 none) sample_kernel2
      top_frame).status = .returned ∧
    (syscall_handler (stack_env 1 0xbffffffc 8 2 0x8048000 4 5 none) sample_kernel2
      top_frame).kernel.trace
      = sample_kernel2.trace ++ [.deref 0xbffffffc, .deref 0xc0000000, .deref 0xc0000004,
          .deref 0xc0000008, .file_read 100 0x8048000 4] ∧
    (syscall_handler (stack_env 1 0xbffffffc 7 2 0 0 5 none) sample_kernel2
      top_frame).status = .returned ∧
    (syscall_handler (stack_env 1 0xbffffffc 7 2 0 0 5 none) sample_kernel2
      top_frame).kernel.trace
      = sample_kernel2.trace ++ [.deref 0xbffffffc, .deref 0xc0000000, .file_length 100] ∧
    (syscall_handler (stack_env 1 0xbffffffc 3 2 0 0 5 none) sample_kernel2
      top_frame).status = .returned ∧
    (syscall_handler (stack_env 1 0xbffffffc 3 2 0 0 5 none) sample_kernel2
      top_frame).kernel.trace
      = sample_kernel2.trace ++ [.deref 0xbffffffc, .deref 0xc0000000, .process_wait 2] := by
  decide

theorem remove_first_fd_of_not_has (l : List file) (fd : Int)
    (h : thread_has_file l fd = false) : remove_first_fd l fd = none := by
  rw [remove_first_fd_none, ← thread_has_file_iff, h]
  exact Bool.false_ne_true

/-- C5 (counterexample to the claim as stated): thread 1 owns descriptor 2, which is
in the global registry with the handle at address 100, and `file_read` would return
5; with a null buffer pointer `handle_read` takes the `handle_invalid` path instead:
it never calls `file_read`, leaves -1 in `eax` and ends the thread. -/
theorem owned_read_null_buffer_killed :
    thread_has_file (sample_kernel2.thread_file_list 1) 2 = true ∧
    find_file_by_fd sample_kernel2.file_list 2 = some ⟨100, 2⟩ ∧
    to_int (load32 (stack_env 1 0xbfffff00 8 2 0 5 5 none) (sample_frame.esp + 4)) = 2 ∧
    to_uint32 ((stack_env 1 0xbfffff00 8 2 0 5 5 none).file_read 100 0 5) = 5 ∧
    (handle_read (stack_env 1 0xbfffff00 8 2 0 5 5 none) sample_kernel2 sample_frame).frame.eax
      = 4294967295 ∧
    (handle_read (stack_env 1 0xbfffff00 8 2 0 5 5 none) sample_kernel2 sample_frame).status
      = .exited ∧
    (handle_read (stack_env 1 0xbfffff00 8 2 0 5 5 none) sample_kernel2
      sample_frame).kernel.trace.filter Event.is_file_call = [] := by
  decide

/-- C5 (amended): for a descriptor `fd > 1` read from the stack. If `fd` is not in
the caller's own list, `filesize`, `read` and `write` leave -1 in `eax` and add no
call of `file_length`, `file_read` or `file_write` to the trace, whether or not the
global registry holds `fd`. If `fd` is in the caller's list and `find_file_by_fd`
finds the handle `h`, then `filesize` leaves the result of `file_length (h)` in `eax`,
and `read` and `write`, when the buffer pointer passes `is_invalid`, leave the result
of `file_read` and `file_write` on `h`. When the buffer pointer fails `is_invalid`,
`read` and `write` take the `handle_invalid` path whatever the descriptor. -/
theorem ownership_gate (env : Env) (k : Kernel) (f : intr_frame)
    (hfd : 1 < to_int (load32 env (f.esp + 4))) :
    (thread_has_file (k.thread_file_list env.cur) (to_int (load32 env (f.esp + 4))) = false →
      ((handle_filesize env k f).frame.eax = to_uint32 (-1) ∧
        ∃ added, (handle_filesize env k f).kernel.trace = k.trace ++ added ∧
          ∀ e ∈ added, e.is_file_call = false) ∧
      ((handle_read env k f).frame.eax = to_uint32 (-1) ∧
        ∃ added, (handle_read env k f).kernel.trace = k.trace ++ added ∧
          ∀ e ∈ added, e.is_file_call = false) ∧
      ((handle_write env k f).frame.eax = to_uint32 (-1) ∧
        ∃ added, (handle_write env k f).kernel.trace = k.trace ++ added ∧
          ∀ e ∈ added, e.is_file_call = false)) ∧
    (∀ h : file,
      thread_has_file (k.thread_file_list env.cur) (to_int (load32 env (f.esp + 4))) = true →
      find_file_by_fd k.file_list (to_int (load32 env (f.esp + 4))) = some h →
      ((handle_filesize env k f).frame.eax = to_uint32 (env.file_length h.ptr) ∧
        (handle_filesize env k f).status = .returned) ∧
      (is_invalid env (load32 env (f.esp + 8)) = false →
        (handle_read env k f).frame.eax =
          to_uint32 (env.file_read h.ptr (load32 env (f.esp + 8)) (load32 env (f.esp + 12))) ∧
        (handle_read env k f).status = .returned ∧
        (handle_write env k f).frame.eax =
          to_uint32 (env.file_write h.ptr (load32 env (f.esp + 8)) (load32 env (f.esp + 12))) ∧
        (handle_write env k f).status = .returned)) ∧
    (is_invalid env (load32 env (f.esp + 8)) = true →
      (handle_read env k f).status = .exited ∧
      (handle_read env k f).frame.eax = to_uint32 (-1) ∧
      (handle_write env k f).status = .exited ∧
      (handle_write env k f).frame.eax = to_uint32 (-1)) := by
  have hne1 : to_int (load32 env (f.esp + 4)) ≠ 1 := by omega
  have hne0 : to_int (load32 env (f.esp + 4)) ≠ 0 := by omega
  refine ⟨?_, ?_, fun hbuf => by simp [handle_read, handle_write, hbuf, handle_invalid]⟩
  · intro hown
    refine ⟨⟨?_, ?_⟩, ⟨?_, ?_⟩, ⟨?_, ?_⟩⟩
    · unfold handle_filesize
      simp only [hfd, if_true, Kernel.emit, hown]
      split <;> simp [ret_eax]
    · unfold handle_filesize
      simp only [hfd, if_true, Kernel.emit, hown]
      split <;> exact ⟨[.deref (f.esp + 4)], by simp [ret_eax], by simp [Event.is_file_call]⟩
    · unfold handle_read
      simp only [hfd, hne0, if_true, if_false, Kernel.emit, hown]
      split
      · simp [handle_invalid]
      · split <;> simp [ret_eax]
    · unfold handle_read
      simp only [hfd, hne0, if_true, if_false, Kernel.emit, hown]
      split
      · exact ⟨[.deref (f.esp + 4), .deref (f.esp + 8), .deref (f.esp + 12),
          .printf_exit env.cur (-1)], by simp [handle_invalid, Kernel.emit],
          by simp [Event.is_file_call]⟩
      · split <;> exact ⟨[.deref (f.esp + 4), .deref (f.esp + 8), .deref (f.esp + 12)],
          by simp [ret_eax], by simp [Event.is_file_call]⟩
    · unfold handle_write
      simp only [hfd, hne1, if_true, if_false, Kernel.emit, hown]
      split
      · simp [handle_invalid]
      · split <;> simp [ret_eax]
    · unfold handle_write
      simp only [hfd, hne1, if_true, if_false, Kernel.emit, hown]
      split
      · exact ⟨[.deref (f.esp + 12), .deref (f.esp + 8), .deref (f.esp + 4),
          .printf_exit env.cur (-1)], by simp [handle_invalid, Kernel.emit],
          by simp [Event.is_file_call]⟩
      · split <;> exact ⟨[.deref (f.esp + 12), .deref (f.esp + 8), .deref (f.esp + 4)],
          by simp [ret_eax], by simp [Event.is_file_call]⟩
  · intro h hown hfind
    refine ⟨?_, fun hbuf => ?_⟩
    · simp [handle_filesize, hfd, Kernel.emit, hown, hfind, ret_eax]
    · simp [handle_read, handle_write, hfd, hne0, hne1, Kernel.emit, hown, hfind, ret_eax, hbuf]

/-- Witness of C5 (amended): thread 1 asks for the size of descriptor 3, which thread 2
opened. -/
theorem ownership_gate_witness :
    1 < to_int (load32 (stack_env 1 0xbfffff00 7 3 0x8048000 5 5 none) (sample_frame.esp + 4)) ∧
    thread_has_file (sample_kernel2.thread_file_list 1)
      (to_int (load32 (stack_env 1 0xbfffff00 7 3 0x8048000 5 5 none) (sample_frame.esp + 4)))
      = false ∧
    (handle_filesize (stack_env 1 0xbfffff00 7 3 0x8048000 5 5 none) sample_kernel2
      sample_frame).frame.eax = to_uint32 (-1) :=
  ⟨by decide, by decide,
    ((ownership_gate (stack_env 1 0xbfffff00 7 3 0x8048000 5 5 none) sample_kernel2 sample_frame
      (by decide)).1 (by decide)).1.1⟩

/-- C6: when the descriptor is not in the calling thread's own list, whatever its
value and whoever else holds it, `handle_close` sets the caller's exit status to -1
and ends in `thread_exit`, and the global `file_list` and every thread's own list are
left as they were. -/
theorem close_unowned_terminates (env : Env) (k : Kernel) (f : intr_frame)
    (h : thread_has_file (k.thread_file_list env.cur) (to_int (load32 env (f.esp + 4))) = false) :
    (handle_close env k f).status = .exited ∧
    (handle_close env k f).kernel.exit_status env.cur = -1 ∧
    (handle_close env k f).kernel.file_list = k.file_list ∧
    (handle_close env k f).kernel.thread_file_list = k.thread_file_list ∧
    (handle_close env k f).kernel.trace =
      k.trace ++ [.deref (f.esp + 4), .printf_exit env.cur (-1)] := by
  have hr := remove_first_fd_of_not_has _ _ h
  simp [handle_close, Kernel.emit, hr, set_at]

/-- Witness of C6: thread 1 closes descriptor 3, which thread 2 opened. -/
theorem close_unowned_terminates_witness :
    thread_has_file (sample_kernel2.thread_file_list 1)
      (to_int (load32 (stack_env 1 0xbfffff00 12 3 0 0 5 none) (sample_frame.esp + 4))) = false ∧
    (handle_close (stack_env 1 0xbfffff00 12 3 0 0 5 none) sample_kernel2 sample_frame).status
      = .exited ∧
    (handle_close (stack_env 1 0xbfffff00 12 3 0 0 5 none) sample_kernel2
      sample_frame).kernel.file_list = sample_kernel2.file_list :=
  ⟨by decide,
    (close_unowned_terminates (stack_env 1 0xbfffff00 12 3 0 0 5 none) sample_kernel2 sample_frame
      (by decide)).1,
    (close_unowned_terminates (stack_env 1 0xbfffff00 12 3 0 0 5 none) sample_kernel2 sample_frame
      (by decide)).2.2.1⟩

/-- The `fd == 1` branch of `handle_write` assigns nothing to `f->eax`. -/
theorem handle_write_console_keeps_eax (env : Env) (k : Kernel) (f : intr_frame)
    (hfd : to_int (load32 env (f.esp + 4)) = 1)
    (hbuf : is_invalid env (load32 env (f.esp + 8)) = false) :
    (handle_write env k f).frame.eax = f.eax ∧ (handle_write env k f).status = .returned := by
  simp [handle_write, hfd, hbuf]

/-- C7 (the code departs from the claim): a write of 5 bytes to descriptor 1 from a
valid buffer returns with `eax` as it was on entry, 0 or 77, not 5; `putbuf` was
called with the buffer and 5. -/
theorem console_write_eax_unchanged :
    is_invalid (stack_env 1 0xbfffff00 9 1 0x8048000 5 5 none) 0x8048000 = false ∧
    (syscall_handler (stack_env 1 0xbfffff00 9 1 0x8048000 5 5 none) syscall_init
      { esp := 0xbfffff00, eax := 0 }).frame.eax = 0 ∧
    (syscall_handler (stack_env 1 0xbfffff00 9 1 0x8048000 5 5 none) syscall_init
      { esp := 0xbfffff00, eax := 77 }).frame.eax = 77 ∧
    (syscall_handler (stack_env 1 0xbfffff00 9 1 0x8048000 5 5 none) syscall_init
      { esp := 0xbfffff00, eax := 0 }).status = .returned ∧
    (syscall_handler (stack_env 1 0xbfffff00 9 1 0x8048000 5 5 none) syscall_init
      { esp := 0xbfffff00, eax := 0 }).kernel.trace =
      [.deref 0xbfffff00, .deref 0xbfffff0c, .deref 0xbfffff08, .deref 0xbfffff04,
        .putbuf 0x8048000 5] := by
  decide

/-- C9 (counterexample to the claim as stated): with both argument words and the name
pointer valid and an empty name, `handle_create` does not return false to the caller:
it takes the `handle_invalid` path, leaving -1 in `eax`, the thread marked killed,
and the handler ended by `thread_exit`. -/
theorem create_empty_name_killed :
    is_invalid (stack_env 1 0xbfffff00 4 0x8048000 0 0 0 none) (sample_frame.esp + 4) = false ∧
    is_invalid (stack_env 1 0xbfffff00 4 0x8048000 0 0 0 none) (sample_frame.esp + 8) = false ∧
    is_invalid (stack_env 1 0xbfffff00 4 0x8048000 0 0 0 none)
      (load32 (stack_env 1 0xbfffff00 4 0x8048000 0 0 0 none) (sample_frame.esp + 4)) = false ∧
    (stack_env 1 0xbfffff00 4 0x8048000 0 0 0 none).strlen
      (load32 (stack_env 1 0xbfffff00 4 0x8048000 0 0 0 none) (sample_frame.esp + 4)) = 0 ∧
    (handle_create (stack_env 1 0xbfffff00 4 0x8048000 0 0 0 none) syscall_init
      sample_frame).status = .exited ∧
    (handle_create (stack_env 1 0xbfffff00 4 0x8048000 0 0 0 none) syscall_init
      sample_frame).frame.eax = 4294967295 ∧
    (handle_create (stack_env 1 0xbfffff00 4 0x8048000 0 0 0 none) syscall_init
      sample_frame).kernel.is_killed 1 = true := by
  decide

/-- C9 (amended): for a create call whose two argument words and name pointer are
valid. If the name is not empty and is longer than 14 characters or names a file
that `filesys_open` finds, the handler leaves 0 (false) in `eax`, adds no call of
`filesys_create` to the trace, marks no thread killed and returns. If the name is
empty, the handler takes the `handle_invalid` path (-1 in `eax`, caller marked killed,
`thread_exit`), likewise without calling `filesys_create`. -/
theorem create_refused (env : Env) (k : Kernel) (f : intr_frame)
    (h4 : is_invalid env (f.esp + 4) = false) (h8 : is_invalid env (f.esp + 8) = false)
    (hname : is_invalid env (load32 env (f.esp + 4)) = false) :
    (env.strlen (load32 env (f.esp + 4)) ≠ 0 →
      (14 < env.strlen (load32 env (f.esp + 4)) ∨
        env.filesys_open (load32 env (f.esp + 4)) ≠ none) →
      (handle_create env k f).frame.eax = 0 ∧
      (handle_create env k f).status = .returned ∧
      (handle_create env k f).kernel.is_killed = k.is_killed ∧
      ∃ added, (handle_create env k f).kernel.trace = k.trace ++ added ∧
        ∀ e ∈ added, e.is_create_call = false) ∧
    (env.strlen (load32 env (f.esp + 4)) = 0 →
      (handle_create env k f).frame.eax = to_uint32 (-1) ∧
      (handle_create env k f).status = .exited ∧
      (handle_create env k f).kernel.is_killed env.cur = true ∧
      ∃ added, (handle_create env k f).kernel.trace = k.trace ++ added ∧
        ∀ e ∈ added, e.is_create_call = false) := by
  constructor
  · intro hne hor
    by_cases hlen : 14 < env.strlen (load32 env (f.esp + 4))
    · refine ⟨?_, ?_, ?_, [.deref (f.esp + 4), .deref (f.esp + 8),
        .strlen (load32 env (f.esp + 4))], ?_, ?_⟩ <;>
        simp [handle_create, h4, h8, hname, hne, hlen, Kernel.emit, ret_eax,
          Event.is_create_call]
    · have hopen : (env.filesys_open (load32 env (f.esp + 4))).isSome = true := by
        rcases hor with h | h
        · exact absurd h hlen
        · exact Option.isSome_iff_ne_none.2 h
      refine ⟨?_, ?_, ?_, [.deref (f.esp + 4), .deref (f.esp + 8),
        .strlen (load32 env (f.esp + 4)), .filesys_open (load32 env (f.esp + 4))], ?_, ?_⟩ <;>
        simp [handle_create, h4, h8, hname, hne, hlen, hopen, Kernel.emit, ret_eax,
          Event.is_create_call]
  · intro hz
    refine ⟨?_, ?_, ?_, [.deref (f.esp + 4), .deref (f.esp + 8),
        .strlen (load32 env (f.esp + 4)), .printf_exit env.cur (-1)], ?_, ?_⟩ <;>
      simp [handle_create, h4, h8, hname, hz, Kernel.emit, handle_invalid, set_at,
        Event.is_create_call]

/-- Witness of C9 (amended): a name of 20 characters. -/
theorem create_refused_witness :
    is_invalid (stack_env 1 0xbfffff00 4 0x8048000 0 0 20 none) (sample_frame.esp + 4) = false ∧
    is_invalid (stack_env 1 0xbfffff00 4 0x8048000 0 0 20 none) (sample_frame.esp + 8) = false ∧
    is_invalid (stack_env 1 0xbfffff00 4 0x8048000 0 0 20 none)
      (load32 (stack_env 1 0xbfffff00 4 0x8048000 0 0 20 none) (sample_frame.esp + 4)) = false ∧
    (handle_create (stack_env 1 0xbfffff00 4 0x8048000 0 0 20 none) syscall_init
      sample_frame).frame.eax = 0 :=
  ⟨by decide, by decide, by decide,
    ((create_refused (stack_env 1 0xbfffff00 4 0x8048000 0 0 20 none) syscall_init sample_frame
      (by decide) (by decide) (by decide)).1 (by decide) (Or.inl (by decide))).1⟩

/-! ## Lemmas on the swap table and the sector loops -/

/-- With enough fuel the loop of `swap_init` appends one Free slot for every multiple
of 8 from `i` up to the disk size. -/
theorem swap_init_loop_eq (size : Nat) :
    ∀ (fuel i : Nat) (tbl : List swap_entry), size ≤ i + fuel →
      swap_init_loop size fuel i tbl =
        tbl ++ (List.range ((size - i + 7) / 8)).map (fun k => ⟨false, i + 8 * k⟩) := by
  intro fuel
  induction fuel with
  | zero =>
    intro i tbl h
    have h0 : (size - i + 7) / 8 = 0 := by omega
    simp [swap_init_loop, h0]
  | succ fuel ih =>
    intro i tbl h
    unfold swap_init_loop
    split
    · rename_i hlt
      rw [ih (i + 8) _ (by omega)]
      have h1 : (size - i + 7) / 8 = (size - (i + 8) + 7) / 8 + 1 := by omega
      rw [h1, List.range_succ_eq_map, List.map_cons, List.map_map, List.append_assoc,
        List.singleton_append]
      congr 2
      apply List.map_congr_left
      intro k _
      simp only [Function.comp_apply, Nat.succ_eq_add_one, swap_entry.mk.injEq, true_and]
      omega
    · rename_i hge
      have h0 : (size - i + 7) / 8 = 0 := by omega
      simp [h0]

theorem swap_init_table_get (size i : Nat) (se : swap_entry)
    (h : (swap_init_loop size size 0 []).get? i = some se) :
    se = ⟨false, 8 * i⟩ := by
  rw [swap_init_loop_eq size size 0 [] (by omega)] at h
  simp only [List.nil_append, List.get?_eq_getElem?, List.getElem?_map, Option.map_eq_some',
    zero_add] at h
  obtain ⟨k, hk, rfl⟩ := h
  by_cases hi : i < (size - 0 + 7) / 8
  · rw [List.getElem?_range hi] at hk
    simp only [Option.some.injEq] at hk
    rw [hk]
  · rw [List.getElem?_eq_none (by simpa using hi)] at hk
    exact Option.noConfusion hk

theorem find_free_slot_some (tbl : List swap_entry) :
    ∀ i sec, find_free_slot tbl = some (i, sec) →
      ∃ se, tbl.get? i = some se ∧ se.is_used = false ∧ se.first_sec_no = sec := by
  induction tbl with
  | nil => intro i sec h; simp [find_free_slot] at h
  | cons x tbl ih =>
    intro i sec h
    unfold find_free_slot at h
    split at h
    · rename_i hx
      simp only [Option.some.injEq, Prod.mk.injEq] at h
      obtain ⟨rfl, rfl⟩ := h
      exact ⟨x, rfl, by simpa using hx, rfl⟩
    · simp only [Option.map_eq_some', Prod.mk.injEq] at h
      obtain ⟨⟨j, sec2⟩, hj, rfl, rfl⟩ := h
      obtain ⟨se, h1, h2, h3⟩ := ih j sec2 hj
      exact ⟨se, by simpa using h1, h2, h3⟩

theorem find_free_slot_none (tbl : List swap_entry) :
    find_free_slot tbl = none ↔ ∀ se ∈ tbl, se.is_used = true := by
  induction tbl with
  | nil => simp [find_free_slot]
  | cons x tbl ih =>
    unfold find_free_slot
    split
    · rename_i hx
      constructor
      · intro h
        exact Option.noConfusion h
      · intro h
        have hx2 := h x (List.mem_cons_self _ _)
        simp [hx2] at hx
    · rename_i hx
      simp only [Option.map_eq_none', ih, List.mem_cons, forall_eq_or_imp]
      exact ⟨fun h => ⟨by simpa using hx, h⟩, fun h => h.2⟩

theorem set_used_get (tbl : List swap_entry) (b : Bool) :
    ∀ i j, (set_used tbl i b).get? j =
      if j = i then (tbl.get? i).map (fun se => { se with is_used := b }) else tbl.get? j := by
  induction tbl with
  | nil => intro i j; simp [set_used]
  | cons x tbl ih =>
    intro i j
    cases i with
    | zero =>
      cases j with
      | zero => simp [set_used]
      | succ j => simp [set_used]
    | succ i =>
      cases j with
      | zero => simp [set_used]
      | succ j => simpa [set_used] using ih i j

theorem write_sectors_loop_data (d : disk) (sec : Nat) (mem : Nat → Nat) (buf : Nat) :
    ∀ n s o, ((List.range n).foldl
        (fun d i => disk_write d (sec + i) mem (buf + i * DISK_SECTOR_SIZE)) d).data s o =
      if sec ≤ s ∧ s < sec + n ∧ o < 512 then mem (buf + (s - sec) * 512 + o) else d.data s o := by
  intro n
  induction n with
  | zero =>
    intro s o
    rw [if_neg (by omega)]
    rfl
  | succ n ih =>
    intro s o
    rw [List.range_succ, List.foldl_append, List.foldl_cons, List.foldl_nil, disk_write]
    dsimp only
    rw [ih]
    simp only [DISK_SECTOR_SIZE]
    by_cases h1 : s = sec + n ∧ o < 512
    · have h2 : sec ≤ s ∧ s < sec + (n + 1) ∧ o < 512 := by omega
      have h3 : s - sec = n := by omega
      rw [if_pos h1, if_pos h2, h3, Nat.add_assoc]
    · rw [if_neg h1]
      by_cases h2 : sec ≤ s ∧ s < sec + n ∧ o < 512
      · have h3 : sec ≤ s ∧ s < sec + (n + 1) ∧ o < 512 := by omega
        rw [if_pos h2, if_pos h3]
      · have h3 : ¬ (sec ≤ s ∧ s < sec + (n + 1) ∧ o < 512) := by omega
        rw [if_neg h2, if_neg h3]

theorem write_sectors_data (d : disk) (sec : Nat) (mem : Nat → Nat) (buf s o : Nat) :
    (write_sectors d sec mem buf).data s o =
      if sec ≤ s ∧ s < sec + 8 ∧ o < 512 then mem (buf + (s - sec) * 512 + o) else d.data s o :=
  write_sectors_loop_data d sec mem buf 8 s o

theorem read_sectors_loop_mem (d : disk) (sec : Nat) (mem : Nat → Nat) (buf : Nat) :
    ∀ n a, ((List.range n).foldl
        (fun m i => disk_read d (sec + i) m (buf + i * DISK_SECTOR_SIZE)) mem) a =
      if buf ≤ a ∧ a < buf + n * 512 then d.data (sec + (a - buf) / 512) ((a - buf) % 512)
      else mem a := by
  intro n
  induction n with
  | zero =>
    intro a
    rw [if_neg (by omega)]
    rfl
  | succ n ih =>
    intro a
    rw [List.range_succ, List.foldl_append, List.foldl_cons, List.foldl_nil, disk_read]
    rw [ih]
    simp only [DISK_SECTOR_SIZE]
    by_cases h1 : buf + n * 512 ≤ a ∧ a < buf + n * 512 + 512
    · have h2 : buf ≤ a ∧ a < buf + (n + 1) * 512 := by omega
      have h3 : (a - buf) / 512 = n := by omega
      have h4 : (a - buf) % 512 = a - (buf + n * 512) := by omega
      rw [if_pos h1, if_pos h2, h3, h4]
    · rw [if_neg h1]
      by_cases h2 : buf ≤ a ∧ a < buf + n * 512
      · have h3 : buf ≤ a ∧ a < buf + (n + 1) * 512 := by omega
        rw [if_pos h2, if_pos h3]
      · have h3 : ¬ (buf ≤ a ∧ a < buf + (n + 1) * 512) := by omega
        rw [if_neg h2, if_neg h3]

theorem read_sectors_mem (d : disk) (sec : Nat) (mem : Nat → Nat) (buf a : Nat) :
    read_sectors d sec mem buf a =
      if buf ≤ a ∧ a < buf + 4096 then d.data (sec + (a - buf) / 512) ((a - buf) % 512)
      else mem a :=
  read_sectors_loop_mem d sec mem buf 8 a

/-! ## The slot invariant is kept by `swap_out` and `swap_in` -/

theorem set_entry_get (spt : Nat → Nat → Option sup_page_entry) (t u : Nat) (e : sup_page_entry)
    (t2 u2 : Nat) :
    set_entry spt t u e t2 u2 = if t2 = t ∧ u2 = u then some e else spt t2 u2 := rfl

/-- A call of `swap_out` on a resident frame returns, keeps the slot invariant, and
leaves alone memory, the other entries, the slots in use and their sectors. -/
theorem swap_out_preserves (s : VM) (f : frame_entry) (hinv : swap_inv s)
    (hres : resident_frame s f) :
    ∃ s2, swap_out s f = some s2 ∧ swap_inv s2 ∧ s2.mem = s.mem ∧
      (∀ t u, ¬ (t = f.using_thread ∧ u = f.upage) →
        s2.sup_page_table t u = s.sup_page_table t u) ∧
      (∀ i se, s.swap_table.get? i = some se → se.is_used = true →
        s2.swap_table.get? i = some se) ∧
      (∀ d d2, s.swap_disk = some d → s2.swap_disk = some d2 →
        ∀ i se, s.swap_table.get? i = some se → se.is_used = true →
          ∀ k, k < 8 → ∀ o, d2.data (8 * i + k) o = d.data (8 * i + k) o) := by
  obtain ⟨e, he, hne⟩ := hres
  obtain ⟨d, hd⟩ := Option.ne_none_iff_exists'.1 hinv.has_disk
  cases hfind : find_free_slot s.swap_table with
  | none =>
    have hrun : swap_out s f = some { s with
        sup_page_table := set_entry s.sup_page_table f.using_thread f.upage
          { e with kpage := none },
        palloc_freed := s.palloc_freed ++ [f.kpage],
        freed_frames := s.freed_frames ++ [f] } := by
      simp only [swap_out, hd, he, hfind]
    refine ⟨_, hrun, ?_, rfl, ?_, ?_, ?_⟩
    · refine { has_disk := hinv.has_disk, sectors := hinv.sectors, in_use := ?_, exclusive := ?_ }
      · intro t u e2 h2 hc
        simp only [set_entry_get] at h2
        split at h2
        · simp only [Option.some.injEq] at h2
          subst h2
          exact absurd hc hne
        · exact hinv.in_use t u e2 h2 hc
      · intro t u e1 t2 u2 e2 h1 h2 hc1 hc2 heq
        simp only [set_entry_get] at h1 h2
        split at h1
        · simp only [Option.some.injEq] at h1
          subst h1
          exact absurd hc1 hne
        · split at h2
          · simp only [Option.some.injEq] at h2
            subst h2
            exact absurd hc2 hne
          · exact hinv.exclusive t u e1 t2 u2 e2 h1 h2 hc1 hc2 heq
    · intro t u hk
      simp only [set_entry_get, if_neg hk]
    · intro i se h1 _
      exact h1
    · intro d1 d2 h1 h2 i se _ _ k _ o
      rw [h1] at h2
      simp only [Option.some.injEq] at h2
      rw [h2]
  | some r =>
    obtain ⟨i, sec⟩ := r
    obtain ⟨se0, hse0, hfree0, hsec0⟩ := find_free_slot_some _ i sec hfind
    have hsec : sec = 8 * i := by rw [← hsec0]; exact hinv.sectors i se0 hse0
    have hother : ∀ j se, s.swap_table.get? j = some se → se.is_used = true → j ≠ i := by
      intro j se hj hu hji
      rw [hji, hse0] at hj
      simp only [Option.some.injEq] at hj
      rw [hj, hu] at hfree0
      exact Bool.noConfusion hfree0
    have hrun : swap_out s f = some { s with
        swap_disk := some (write_sectors d sec s.mem f.kpage),
        swap_table := set_used s.swap_table i true,
        sup_page_table := set_entry s.sup_page_table f.using_thread f.upage
          { e with swap_address := some i, fault_case := .CASE_SWAP, kpage := none },
        palloc_freed := s.palloc_freed ++ [f.kpage],
        freed_frames := s.freed_frames ++ [f] } := by
      simp only [swap_out, hd, he, hfind]
    refine ⟨_, hrun, ?_, rfl, ?_, ?_, ?_⟩
    · refine { has_disk := by simp, sectors := ?_, in_use := ?_, exclusive := ?_ }
      · intro j se hj
        simp only [set_used_get] at hj
        split at hj
        · rename_i hji
          rw [hse0] at hj
          simp only [Option.map_some', Option.some.injEq] at hj
          rw [← hj, hji]
          exact hinv.sectors i se0 hse0
        · exact hinv.sectors j se hj
      · intro t u e2 h2 hc
        simp only [set_entry_get] at h2
        split at h2
        · simp only [Option.some.injEq] at h2
          subst h2
          exact ⟨i, { se0 with is_used := true }, rfl,
            by rw [set_used_get, if_pos rfl, hse0]; rfl, rfl⟩
        · obtain ⟨j, se, h3, h4, h5⟩ := hinv.in_use t u e2 h2 hc
          refine ⟨j, se, h3, ?_, h5⟩
          simp only [set_used_get, if_neg (hother j se h4 h5)]
          exact h4
      · intro t u e1 t2 u2 e2 h1 h2 hc1 hc2 heq
        simp only [set_entry_get] at h1 h2
        split at h1
        · rename_i hk1
          split at h2
          · rename_i hk2
            exact ⟨hk1.1.trans hk2.1.symm, hk1.2.trans hk2.2.symm⟩
          · simp only [Option.some.injEq] at h1
            subst h1
            obtain ⟨j, se, h3, h4, h5⟩ := hinv.in_use t2 u2 e2 h2 hc2
            rw [h3] at heq
            simp only [Option.some.injEq] at heq
            exact absurd heq.symm (hother j se h4 h5)
        · split at h2
          · simp only [Option.some.injEq] at h2
            subst h2
            obtain ⟨j, se, h3, h4, h5⟩ := hinv.in_use t u e1 h1 hc1
            rw [h3] at heq
            simp only [Option.some.injEq] at heq
            exact absurd heq (hother j se h4 h5)
          · exact hinv.exclusive t u e1 t2 u2 e2 h1 h2 hc1 hc2 heq
    · intro t u hk
      simp only [set_entry_get, if_neg hk]
    · intro j se h1 h2
      simp only [set_used_get, if_neg (hother j se h1 h2)]
      exact h1
    · intro d1 d2 h1 h2 j se h3 h4 k hk o
      rw [hd] at h1
      simp only [Option.some.injEq] at h1 h2
      subst h1
      rw [← h2, write_sectors_data]
      have hji := hother j se h3 h4
      rw [if_neg]
      rw [hsec]
      omega

/-- The part of `swap_in` after the allocation, on a swapped-out entry, returns,
keeps the slot invariant, and does what its body says. -/
theorem swap_in_body_preserves (s : VM) (cur t u : Nat) (writable : Bool) (kpage : Nat)
    (hinv : swap_inv s) (hsw : swapped_out s t u) :
    ∃ s2 d e i se, swap_in_body s cur t u writable kpage = some s2 ∧
      s.swap_disk = some d ∧ s.sup_page_table t u = some e ∧
      e.fault_case = .CASE_SWAP ∧ e.swap_address = some i ∧
      s.swap_table.get? i = some se ∧ se.is_used = true ∧
      swap_inv s2 ∧ s2.swap_disk = some d ∧
      s2.mem = read_sectors d (8 * i) s.mem kpage ∧
      s2.swap_table = set_used s.swap_table i false ∧
      s2.sup_page_table = set_entry s.sup_page_table t u { e with fault_case := .CASE_ZERO } ∧
      s2.pagedir = pagedir_set_page s.pagedir cur e.upage kpage writable := by
  obtain ⟨e, he, hc⟩ := hsw
  obtain ⟨d, hd⟩ := Option.ne_none_iff_exists'.1 hinv.has_disk
  obtain ⟨i, se, hi, hse, hused⟩ := hinv.in_use t u e he hc
  have hsec := hinv.sectors i se hse
  have hrun : swap_in_body s cur t u writable kpage = some { s with
      mem := read_sectors d (8 * i) s.mem kpage,
      swap_table := set_used s.swap_table i false,
      pagedir := pagedir_set_page s.pagedir cur e.upage kpage writable,
      sup_page_table := set_entry s.sup_page_table t u { e with fault_case := .CASE_ZERO } } := by
    simp only [swap_in_body, hd, he, hi, hse, hsec]
  refine ⟨_, d, e, i, se, hrun, hd, he, hc, hi, hse, hused, ?_, hd, rfl, rfl, rfl, rfl⟩
  refine { has_disk := hinv.has_disk, sectors := ?_, in_use := ?_, exclusive := ?_ }
  · intro j se2 hj
    simp only [set_used_get] at hj
    split at hj
    · rename_i hji
      rw [hse] at hj
      simp only [Option.map_some', Option.some.injEq] at hj
      rw [← hj, hji]
      exact hsec
    · exact hinv.sectors j se2 hj
  · intro t2 u2 e2 h2 hc2
    simp only [set_entry_get] at h2
    split at h2
    · simp only [Option.some.injEq] at h2
      subst h2
      exact fault_case_tag.noConfusion hc2
    · rename_i hk
      obtain ⟨j, se2, h3, h4, h5⟩ := hinv.in_use t2 u2 e2 h2 hc2
      refine ⟨j, se2, h3, ?_, h5⟩
      have hji : j ≠ i := by
        intro hji
        exact hk (hinv.exclusive t2 u2 e2 t u e h2 he hc2 hc (by rw [h3, hi, hji]))
      simp only [set_used_get, if_neg hji]
      exact h4
  · intro t1 u1 e1 t2 u2 e2 h1 h2 hc1 hc2 heq
    simp only [set_entry_get] at h1 h2
    split at h1
    · simp only [Option.some.injEq] at h1
      subst h1
      exact fault_case_tag.noConfusion hc1
    · split at h2
      · simp only [Option.some.injEq] at h2
        subst h2
        exact fault_case_tag.noConfusion hc2
      · exact hinv.exclusive t1 u1 e1 t2 u2 e2 h1 h2 hc1 hc2 heq

/-- A swapped-out entry and the sectors of its slot are not touched by `swap_out`
on a resident frame. -/
theorem swap_out_keeps_slot (s s2 : VM) (f : frame_entry) (hinv : swap_inv s)
    (hres : resident_frame s f) (hrun : swap_out s f = some s2)
    (t u i : Nat) (c : Nat → Nat) (h : slot_holds s t u i c) : slot_holds s2 t u i c := by
  obtain ⟨s3, h3, _, _, hent, _, hdisk⟩ := swap_out_preserves s f hinv hres
  rw [hrun] at h3
  simp only [Option.some.injEq] at h3
  subst h3
  obtain ⟨⟨e, he, hc, hi⟩, d, hd, hdata⟩ := h
  obtain ⟨e0, he0, hne0⟩ := hres
  have hk : ¬ (t = f.using_thread ∧ u = f.upage) := by
    rintro ⟨rfl, rfl⟩
    rw [he0] at he
    simp only [Option.some.injEq] at he
    exact hne0 (he ▸ hc)
  obtain ⟨j, se, h4, h5, h6⟩ := hinv.in_use t u e he hc
  have hji : j = i := by
    rw [hi] at h4
    simp only [Option.some.injEq] at h4
    exact h4.symm
  subst hji
  obtain ⟨d2, hd2⟩ : ∃ d2, s2.swap_disk = some d2 := by
    obtain ⟨s4, h7, h8, _⟩ := swap_out_preserves s f hinv ⟨e0, he0, hne0⟩
    rw [hrun] at h7
    simp only [Option.some.injEq] at h7
    subst h7
    exact Option.ne_none_iff_exists'.1 h8.has_disk
  refine ⟨⟨e, by rw [hent t u hk]; exact he, hc, hi⟩, d2, hd2, ?_⟩
  intro off hoff
  rw [hdisk d d2 hd hd2 j se h5 h6 (off / 512) (by omega) (off % 512)]
  exact hdata off hoff

/-- A swapped-out entry and the sectors of its slot are not touched by the body of
`swap_in` on another entry. -/
theorem swap_in_body_keeps_slot (s s2 : VM) (cur t2 u2 : Nat) (writable : Bool) (kpage : Nat)
    (hinv : swap_inv s) (hsw : swapped_out s t2 u2)
    (hrun : swap_in_body s cur t2 u2 writable kpage = some s2)
    (t u i : Nat) (c : Nat → Nat) (hk : ¬ (t2 = t ∧ u2 = u)) (h : slot_holds s t u i c) :
    slot_holds s2 t u i c := by
  obtain ⟨s3, d, e, j, se, h3, hd, _, _, _, _, _, _, hd3, _, _, hspt, _⟩ :=
    swap_in_body_preserves s cur t2 u2 writable kpage hinv hsw
  rw [hrun] at h3
  simp only [Option.some.injEq] at h3
  subst h3
  obtain ⟨⟨e1, he1, hc1, hi1⟩, d1, hd1, hdata⟩ := h
  rw [hd] at hd1
  simp only [Option.some.injEq] at hd1
  subst hd1
  refine ⟨⟨e1, ?_, hc1, hi1⟩, d, hd3, hdata⟩
  rw [hspt, set_entry_get, if_neg (fun hh => hk ⟨hh.1.symm, hh.2.symm⟩)]
  exact he1

/-- The frame allocation of `swap_in` on a swapped-out entry, evicting a resident
frame or none, returns and keeps the invariant, the entry and every held slot; the
body then runs in the state the allocation leaves. -/
theorem swap_in_alloc (s : VM) (cur t u : Nat) (writable : Bool) (victim : Option frame_entry)
    (kpage : Nat) (hinv : swap_inv s) (hsw : swapped_out s t u)
    (hv : ∀ v, victim = some v → resident_frame s v) :
    ∃ s1, frame_table_allocator s victim kpage = some (s1, kpage) ∧ swap_inv s1 ∧
      swapped_out s1 t u ∧
      (∀ t2 u2 i c, slot_holds s t2 u2 i c → slot_holds s1 t2 u2 i c) ∧
      swap_in s cur t u writable victim kpage = swap_in_body s1 cur t u writable kpage ∧
      s1.sup_page_table t u = s.sup_page_table t u ∧
      (∀ i se, s.swap_table.get? i = some se → se.is_used = true →
        s1.swap_table.get? i = some se) := by
  cases victim with
  | none =>
    exact ⟨s, rfl, hinv, hsw, fun _ _ _ _ h => h, rfl, rfl, fun _ _ h _ => h⟩
  | some v =>
    have hres := hv v rfl
    obtain ⟨s1, h1, h2, _, hent, htbl, _⟩ := swap_out_preserves s v hinv hres
    have hk : ¬ (t = v.using_thread ∧ u = v.upage) := by
      obtain ⟨e, he, hc⟩ := hsw
      obtain ⟨e0, he0, hne0⟩ := hres
      rintro ⟨rfl, rfl⟩
      rw [he0] at he
      simp only [Option.some.injEq] at he
      exact hne0 (he ▸ hc)
    refine ⟨s1, by simp only [frame_table_allocator, h1, Option.map_some'], h2, ?_, ?_, ?_,
      hent t u hk, htbl⟩
    · obtain ⟨e, he, hc⟩ := hsw
      exact ⟨e, by rw [hent t u hk]; exact he, hc⟩
    · intro t2 u2 i c h
      exact swap_out_keeps_slot s s1 v hinv hres h1 t2 u2 i c h
    · simp only [swap_in, frame_table_allocator, h1, Option.map_some']

/-- Every step keeps the slot invariant, and keeps every held slot of an entry the
step avoids. -/
theorem swap_step_preserves (avoid : Nat → Nat → Prop) (s s2 : VM)
    (hstep : SwapStep avoid s s2) (hinv : swap_inv s) :
    swap_inv s2 ∧
    ∀ t u i c, avoid t u → slot_holds s t u i c → slot_holds s2 t u i c := by
  cases hstep with
  | out f hres _ hrun =>
    obtain ⟨s3, h3, h4, _⟩ := swap_out_preserves s f hinv hres
    rw [hrun] at h3
    simp only [Option.some.injEq] at h3
    subst h3
    exact ⟨h4, fun t u i c _ h => swap_out_keeps_slot s s2 f hinv hres hrun t u i c h⟩
  | swap_in cur t2 u2 writable victim kpage hsw hav hv hrun =>
    obtain ⟨s1, _, hinv1, hsw1, hkeep, heq, _⟩ :=
      swap_in_alloc s cur t2 u2 writable victim kpage hinv hsw (fun v h => (hv v h).1)
    rw [heq] at hrun
    obtain ⟨s3, _, _, _, _, h3, _, _, _, _, _, _, h4, _⟩ :=
      swap_in_body_preserves s1 cur t2 u2 writable kpage hinv1 hsw1
    rw [hrun] at h3
    simp only [Option.some.injEq] at h3
    subst h3
    refine ⟨h4, fun t u i c hat h => ?_⟩
    have hk : ¬ (t2 = t ∧ u2 = u) := by
      rintro ⟨rfl, rfl⟩
      exact hav hat
    exact swap_in_body_keeps_slot s1 s2 cur t2 u2 writable kpage hinv1 hsw1 hrun t u i c hk
      (hkeep t u i c h)
  | store m =>
    exact ⟨{ has_disk := hinv.has_disk, sectors := hinv.sectors, in_use := hinv.in_use,
             exclusive := hinv.exclusive }, fun t u i c _ h => h⟩
  | install t2 u2 e2 hpre hne =>
    refine ⟨{ has_disk := hinv.has_disk, sectors := hinv.sectors, in_use := ?_,
              exclusive := ?_ }, ?_⟩
    · intro t u e he hc
      simp only [set_entry_get] at he
      split at he
      · simp only [Option.some.injEq] at he
        subst he
        exact absurd hc hne
      · exact hinv.in_use t u e he hc
    · intro t u e t3 u3 e3 he he3 hc hc3 heq
      simp only [set_entry_get] at he he3
      split at he
      · simp only [Option.some.injEq] at he
        subst he
        exact absurd hc hne
      · split at he3
        · simp only [Option.some.injEq] at he3
          subst he3
          exact absurd hc3 hne
        · exact hinv.exclusive t u e t3 u3 e3 he he3 hc hc3 heq
    · intro t u i c _ h
      obtain ⟨⟨e, he, hc, hi⟩, hdisk⟩ := h
      refine ⟨⟨e, ?_, hc, hi⟩, hdisk⟩
      have hk : ¬ (t = t2 ∧ u = u2) := by
        rintro ⟨rfl, rfl⟩
        exact hpre e he hc
      simp only [set_entry_get, if_neg hk]
      exact he

theorem swap_inv_init (s0 s : VM)
    (h0 : ∀ t u e, s0.sup_page_table t u = some e → e.fault_case ≠ .CASE_SWAP)
    (hrun : swap_init s0 = some s) : swap_inv s := by
  unfold swap_init at hrun
  cases hd : s0.swap_disk with
  | none =>
    rw [hd] at hrun
    exact Option.noConfusion hrun
  | some d =>
    rw [hd] at hrun
    simp only [Option.some.injEq] at hrun
    subst hrun
    refine { has_disk := by simp [hd], sectors := ?_, in_use := ?_, exclusive := ?_ }
    · intro i se h
      rw [swap_init_table_get d.size i se h]
    · intro t u e he hc
      exact absurd hc (h0 t u e he)
    · intro t u e _ _ _ he _ hc _ _
      exact absurd hc (h0 t u e he)

theorem swap_inv_of_reachable {s : VM} (h : SwapReachable s) : swap_inv s := by
  induction h with
  | init s0 h0 hrun => exact swap_inv_init s0 _ h0 hrun
  | step _ hstep ih => exact (swap_step_preserves _ _ _ hstep ih).1

/-- A run of steps that avoid an entry keeps the invariant and the entry's held slot. -/
theorem swap_steps_keep_slot (t u i : Nat) (c : Nat → Nat) (s1 s2 : VM)
    (hsteps : Relation.ReflTransGen (SwapStep (fun a b => a = t ∧ b = u)) s1 s2)
    (hinv : swap_inv s1) (h : slot_holds s1 t u i c) :
    swap_inv s2 ∧ slot_holds s2 t u i c := by
  induction hsteps with
  | refl => exact ⟨hinv, h⟩
  | tail _ hstep ih =>
    obtain ⟨h1, h2⟩ := swap_step_preserves _ _ _ hstep ih.1
    exact ⟨h1, h2 t u i c ⟨rfl, rfl⟩ ih.2⟩

/-- When a slot is free, `swap_out` on a resident frame leaves the entry swapped
out to a slot that holds the 4096 bytes the frame had. -/
theorem swap_out_holds (s : VM) (f : frame_entry) (hinv : swap_inv s)
    (hres : resident_frame s f) (hfree : ∃ se ∈ s.swap_table, se.is_used = false) :
    ∃ s1 i, swap_out s f = some s1 ∧ swap_inv s1 ∧
      slot_holds s1 f.using_thread f.upage i (fun off => s.mem (f.kpage + off)) := by
  obtain ⟨s1, h1, h2, _⟩ := swap_out_preserves s f hinv hres
  obtain ⟨e, he, _⟩ := hres
  obtain ⟨d, hd⟩ := Option.ne_none_iff_exists'.1 hinv.has_disk
  cases hfind : find_free_slot s.swap_table with
  | none =>
    obtain ⟨se, hse, hu⟩ := hfree
    rw [(find_free_slot_none _).1 hfind se hse] at hu
    exact Bool.noConfusion hu
  | some r =>
    obtain ⟨i, sec⟩ := r
    obtain ⟨se0, hse0, _, hsec0⟩ := find_free_slot_some _ i sec hfind
    have hsec : sec = 8 * i := by rw [← hsec0]; exact hinv.sectors i se0 hse0
    refine ⟨s1, i, h1, h2, ?_⟩
    simp only [swap_out, hd, he, hfind, Option.some.injEq] at h1
    subst h1
    refine ⟨⟨{ e with swap_address := some i, fault_case := .CASE_SWAP, kpage := none },
      by simp [set_entry_get], rfl, rfl⟩, _, rfl, ?_⟩
    intro off hoff
    rw [write_sectors_data, hsec, if_pos (by omega)]
    congr 1
    omega

/-- On an entry whose slot holds `c`, `swap_in` returns and the 4096 bytes of the new
frame are `c`. -/
theorem swap_in_reads_slot (s : VM) (cur t u : Nat) (writable : Bool)
    (victim : Option frame_entry) (kpage i : Nat) (c : Nat → Nat) (hinv : swap_inv s)
    (h : slot_holds s t u i c) (hv : ∀ v, victim = some v → resident_frame s v) :
    ∃ s3, swap_in s cur t u writable victim kpage = some s3 ∧
      ∀ off, off < 4096 → s3.mem (kpage + off) = c off := by
  have hsw : swapped_out s t u := by
    obtain ⟨⟨e, he, hc, _⟩, _⟩ := h
    exact ⟨e, he, hc⟩
  obtain ⟨s1, _, hinv1, hsw1, hkeep, heq, _⟩ :=
    swap_in_alloc s cur t u writable victim kpage hinv hsw hv
  obtain ⟨s3, d, e, j, se, h3, hd, he, _, hj, _, _, _, _, hmem, _⟩ :=
    swap_in_body_preserves s1 cur t u writable kpage hinv1 hsw1
  obtain ⟨⟨e1, he1, _, hi1⟩, d1, hd1, hdata⟩ := hkeep t u i c h
  rw [he] at he1
  simp only [Option.some.injEq] at he1
  subst he1
  rw [hj] at hi1
  simp only [Option.some.injEq] at hi1
  subst hi1
  rw [hd] at hd1
  simp only [Option.some.injEq] at hd1
  subst hd1
  refine ⟨s3, heq.trans h3, fun off hoff => ?_⟩
  rw [hmem, read_sectors_mem, if_pos (by omega), Nat.add_sub_cancel_left]
  exact hdata off hoff

/-! ## Sample swap states are reachable -/

theorem sample_vm_reachable : SwapReachable sample_vm := by
  refine SwapReachable.init sample_vm0 ?_ rfl
  intro t u e he
  simp only [sample_vm0] at he
  split at he
  · simp only [Option.some.injEq] at he
    subst he
    decide
  · exact Option.noConfusion he

theorem sample_frame_resident : resident_frame sample_vm sample_frame_entry :=
  ⟨⟨0x8048000, some 0xc0100000, .CASE_ZERO, none⟩, by decide, by decide⟩

theorem sample_swap_out_run : swap_out sample_vm sample_frame_entry = some sample_swapped := by
  obtain ⟨s2, h, _⟩ :=
    swap_out_preserves sample_vm sample_frame_entry (swap_inv_of_reachable sample_vm_reachable)
      sample_frame_resident
  rw [sample_swapped, h]
  rfl

theorem sample_swapped_reachable : SwapReachable sample_swapped :=
  SwapReachable.step sample_vm_reachable
    (SwapStep.out sample_frame_entry sample_frame_resident (fun h => h) sample_swap_out_run)

/-! ## Claims on the swap device manager -/

/-- C4: in a state reached from `swap_init` with a Free slot, `swap_out` on the
resident frame of an entry returns and leaves the entry swapped out; after any run
of steps that are not on this entry (`swap_out` on resident frames, `swap_in` on
swapped-out entries, memory stores, entries made or rewritten outside swap.c),
`swap_in` on the entry (its own frame allocation evicting a resident frame or none)
returns, and the 4096 bytes of the new frame equal, byte for byte, the bytes the
evicted frame held when `swap_out` was called. -/
theorem swap_round_trip (s0 : VM) (h0 : SwapReachable s0) (f : frame_entry)
    (hres : resident_frame s0 f) (hfree : ∃ se ∈ s0.swap_table, se.is_used = false) :
    ∃ s1, swap_out s0 f = some s1 ∧ swapped_out s1 f.using_thread f.upage ∧
      ∀ s2, Relation.ReflTransGen
          (SwapStep (fun t u => t = f.using_thread ∧ u = f.upage)) s1 s2 →
        ∀ (cur : Nat) (writable : Bool) (victim : Option frame_entry) (kpage : Nat),
          (∀ v, victim = some v → resident_frame s2 v) →
          ∃ s3, swap_in s2 cur f.using_thread f.upage writable victim kpage = some s3 ∧
            ∀ off, off < 4096 → s3.mem (kpage + off) = s0.mem (f.kpage + off) := by
  obtain ⟨s1, i, h1, hinv1, hholds⟩ := swap_out_holds s0 f (swap_inv_of_reachable h0) hres hfree
  refine ⟨s1, h1, ?_, ?_⟩
  · obtain ⟨⟨e, he, hc, _⟩, _⟩ := hholds
    exact ⟨e, he, hc⟩
  · intro s2 hsteps cur writable victim kpage hv
    obtain ⟨hinv2, hholds2⟩ :=
      swap_steps_keep_slot f.using_thread f.upage i _ s1 s2 hsteps hinv1 hholds
    exact swap_in_reads_slot s2 cur f.using_thread f.upage writable victim kpage i _ hinv2
      hholds2 hv

/-- Witness of C4: the page of thread 1 is evicted right after `swap_init` and
swapped in again into the frame at `0xc0200000`. -/
theorem swap_round_trip_witness :
    SwapReachable sample_vm ∧ resident_frame sample_vm sample_frame_entry ∧
    (∃ se ∈ sample_vm.swap_table, se.is_used = false) ∧
    ∃ s3, swap_in sample_swapped 1 1 0x8048000 true none 0xc0200000 = some s3 ∧
      s3.mem (0xc0200000 + 5) = sample_vm.mem (0xc0100000 + 5) := by
  have hfree : ∃ se ∈ sample_vm.swap_table, se.is_used = false := ⟨⟨false, 0⟩, by decide, rfl⟩
  refine ⟨sample_vm_reachable, sample_frame_resident, hfree, ?_⟩
  obtain ⟨s1, h1, _, h2⟩ :=
    swap_round_trip sample_vm sample_vm_reachable sample_frame_entry sample_frame_resident hfree
  rw [sample_swap_out_run] at h1
  simp only [Option.some.injEq] at h1
  subst h1
  obtain ⟨s3, h3, h4⟩ := h2 sample_swapped Relation.ReflTransGen.refl 1 true none 0xc0200000
    (fun v hv => Option.noConfusion hv)
  exact ⟨s3, h3, h4 5 (by decide)⟩

/-- C10: in every state reached from `swap_init` by `swap_out` on resident frames and
`swap_in` on swapped-out entries, a slot whose `is_used` flag is true is the recorded
slot of at most one swapped-out entry, and every swapped-out entry records a slot
whose `is_used` flag is true. -/
theorem swap_slot_exclusive (s : VM) (h : SwapReachable s) :
    (∀ i se, s.swap_table.get? i = some se → se.is_used = true →
      ∀ t u e t2 u2 e2,
        s.sup_page_table t u = some e → e.fault_case = .CASE_SWAP → e.swap_address = some i →
        s.sup_page_table t2 u2 = some e2 → e2.fault_case = .CASE_SWAP →
        e2.swap_address = some i → t = t2 ∧ u = u2) ∧
    (∀ t u e, s.sup_page_table t u = some e → e.fault_case = .CASE_SWAP →
      ∃ i se, e.swap_address = some i ∧ s.swap_table.get? i = some se ∧ se.is_used = true) := by
  have hinv := swap_inv_of_reachable h
  refine ⟨?_, hinv.in_use⟩
  intro i se _ _ t u e t2 u2 e2 he hc hi he2 hc2 hi2
  exact hinv.exclusive t u e t2 u2 e2 he he2 hc hc2 (hi.trans hi2.symm)

/-- Witness of C10 at the state after one `swap_out`. -/
theorem swap_slot_exclusive_witness :
    SwapReachable sample_swapped ∧
    ∀ t u e, sample_swapped.sup_page_table t u = some e → e.fault_case = .CASE_SWAP →
      ∃ i se, e.swap_address = some i ∧ sample_swapped.swap_table.get? i = some se ∧
        se.is_used = true :=
  ⟨sample_swapped_reachable, (swap_slot_exclusive sample_swapped sample_swapped_reachable).2⟩

/-- C8 (counterexample to the claim as stated): the entry of thread 1 is swapped out
to slot 0, which is in use; after `swap_in` its tag is `CASE_ZERO`, the
zero-fill-pending tag, and not the resident tag. -/
theorem swap_in_tag_is_case_zero :
    (sample_swapped.sup_page_table 1 0x8048000).map (fun e => (e.fault_case, e.swap_address))
      = some (.CASE_SWAP, some 0) ∧
    (sample_swapped.swap_table.get? 0).map (fun se => se.is_used) = some true ∧
    ((swap_in sample_swapped 1 1 0x8048000 true none 0xc0200000).bind
      (fun s => s.sup_page_table 1 0x8048000)).map (fun e => e.fault_case) = some .CASE_ZERO ∧
    ((swap_in sample_swapped 1 1 0x8048000 true none 0xc0200000).bind
      (fun s => s.sup_page_table 1 0x8048000)).map (fun e => e.fault_case)
      ≠ some .CASE_RESIDENT := by
  decide

/-- C8 (amended): in a reachable state, for an entry `e` in the swapped-out state
whose slot `i` is in use, `swap_in` (its frame allocation evicting a resident frame
or none) returns, and afterwards slot `i` is Free, the 4096 bytes of the new frame
are the bytes of the eight sectors of the slot, the frame is mapped at `e.upage` in
the page directory of the running thread, and the entry is as before except that its
tag is `CASE_ZERO`. -/
theorem swap_in_effect (s : VM) (h : SwapReachable s) (cur t u : Nat) (writable : Bool)
    (victim : Option frame_entry) (kpage : Nat) (e : sup_page_entry) (i : Nat)
    (se : swap_entry) (d : disk)
    (he : s.sup_page_table t u = some e) (hc : e.fault_case = .CASE_SWAP)
    (hi : e.swap_address = some i) (hse : s.swap_table.get? i = some se)
    (hu : se.is_used = true) (hd : s.swap_disk = some d)
    (hv : ∀ v, victim = some v → resident_frame s v) :
    ∃ s2, swap_in s cur t u writable victim kpage = some s2 ∧
      s2.swap_table.get? i = some { se with is_used := false } ∧
      (∀ off, off < 4096 →
        s2.mem (kpage + off) = d.data (se.first_sec_no + off / 512) (off % 512)) ∧
      s2.pagedir cur e.upage = some (kpage, writable) ∧
      s2.sup_page_table t u = some { e with fault_case := .CASE_ZERO } := by
  have hinv := swap_inv_of_reachable h
  have hsw : swapped_out s t u := ⟨e, he, hc⟩
  have hholds : slot_holds s t u i (fun off => d.data (8 * i + off / 512) (off % 512)) :=
    ⟨⟨e, he, hc, hi⟩, d, hd, fun _ _ => rfl⟩
  obtain ⟨s2, hrun, hmem⟩ :=
    swap_in_reads_slot s cur t u writable victim kpage i _ hinv hholds hv
  obtain ⟨s1, _, hinv1, hsw1, _, heq, hent1, htbl1⟩ :=
    swap_in_alloc s cur t u writable victim kpage hinv hsw hv
  obtain ⟨s3, _, e1, j, _, h3, _, he1, _, hj, _, _, _, _, _, htbl, hspt, hpd⟩ :=
    swap_in_body_preserves s1 cur t u writable kpage hinv1 hsw1
  rw [heq, h3] at hrun
  simp only [Option.some.injEq] at hrun
  subst hrun
  rw [hent1, he] at he1
  simp only [Option.some.injEq] at he1
  subst he1
  rw [hi] at hj
  simp only [Option.some.injEq] at hj
  subst hj
  refine ⟨s3, heq.trans h3, ?_, ?_, ?_, ?_⟩
  · rw [htbl, set_used_get, if_pos rfl, htbl1 i se hse hu]
    rfl
  · intro off hoff
    rw [hmem off hoff, hinv.sectors i se hse]
  · rw [hpd]
    simp [pagedir_set_page]
  · rw [hspt]
    simp [set_entry_get]

/-- Witness of C8 (amended) at the state after one `swap_out`. -/
theorem swap_in_effect_witness :
    SwapReachable sample_swapped ∧
    ∃ s2, swap_in sample_swapped 1 1 0x8048000 true none 0xc0200000 = some s2 ∧
      s2.swap_table.get? 0 = some ⟨false, 0⟩ ∧
      s2.pagedir 1 0x8048000 = some (0xc0200000, true) ∧
      s2.sup_page_table 1 0x8048000 = some ⟨0x8048000, none, .CASE_ZERO, some 0⟩ := by
  obtain ⟨s2, h1, h2, _, h3, h4⟩ :=
    swap_in_effect sample_swapped sample_swapped_reachable 1 1 0x8048000 true none 0xc0200000
      ⟨0x8048000, none, .CASE_SWAP, some 0⟩ 0 ⟨true, 0⟩ { size := 16, data := _ }
      (by decide) rfl rfl (by decide) rfl rfl (fun v hv => Option.noConfusion hv)
  exact ⟨sample_swapped_reachable, s2, h1, h2, h3, h4⟩

/-! ## Further lemmas on the registry lists -/

theorem registry_sorted_iff (l : List file) :
    registry_sorted l ↔ List.Sorted (· < ·) (fds l) ∧ ∀ d ∈ fds l, 2 ≤ d := by
  unfold registry_sorted List.Sorted
  rw [List.chain_iff_pairwise, List.pairwise_cons]
  constructor
  · rintro ⟨h1, h2⟩
    exact ⟨h2, fun d hd => by have := h1 d hd; omega⟩
  · rintro ⟨h1, h2⟩
    exact ⟨fun d hd => by have := h2 d hd; omega, h1⟩

/-- In a list without repeated descriptors, unlinking the first handle with
descriptor `fd` leaves exactly the other handles, in their order. -/
theorem remove_first_fd_eq_filter (l : List file) (fd : Int) (hn : (fds l).Nodup) :
    ∀ l2, remove_first_fd l fd = some l2 → l2 = l.filter (fun x => decide (x.fd ≠ fd)) := by
  induction l with
  | nil => intro l2 h; simp [remove_first_fd] at h
  | cons y l ih =>
    intro l2 h
    have hn2 : y.fd ∉ fds l ∧ (fds l).Nodup := by simpa [fds] using hn
    unfold remove_first_fd at h
    split at h
    · rename_i hy
      simp only [Option.some.injEq] at h
      subst h
      have hall : ∀ x ∈ l, decide (x.fd ≠ fd) = true := by
        intro x hx
        simp only [ne_eq, decide_not, Bool.not_eq_eq_eq_not, Bool.not_true, decide_eq_false_iff_not]
        intro hxfd
        exact hn2.1 (by rw [hy, ← hxfd]; exact List.mem_map_of_mem _ hx)
      rw [List.filter_cons_of_neg (by simp [hy]), List.filter_eq_self.2 hall]
    · rename_i hy
      simp only [Option.map_eq_some'] at h
      obtain ⟨l3, h3, rfl⟩ := h
      rw [List.filter_cons_of_pos (by simpa using hy), ← ih hn2.2 l3 h3]

/-- In a list without repeated descriptors, `find_file_by_fd` on the descriptor of a
linked handle finds that handle. -/
theorem find_file_by_fd_of_mem (l : List file) (hn : (fds l).Nodup) (x : file) (hx : x ∈ l) :
    find_file_by_fd l x.fd = some x := by
  induction l with
  | nil => exact absurd hx (List.not_mem_nil _)
  | cons y l ih =>
    have hn2 : y.fd ∉ fds l ∧ (fds l).Nodup := by simpa [fds] using hn
    unfold find_file_by_fd
    rcases List.mem_cons.1 hx with h | h
    · subst h
      simp
    · have hne : y.fd ≠ x.fd := fun hc => hn2.1 (hc ▸ List.mem_map_of_mem _ h)
      rw [if_neg hne]
      exact ih hn2.2 h

theorem list_insert_ordered_sublist (l : List file) (e : file) :
    l.Sublist (list_insert_ordered l e) := by
  induction l with
  | nil => exact List.nil_sublist _
  | cons x l ih =>
    unfold list_insert_ordered
    split
    · exact List.sublist_cons_self _ _
    · exact ih.cons₂ x

/-! ## Further claims on the open-file registry -/

/-- C16: in every state reached from the empty registry by open and close calls the
global `file_list` is in strictly ascending descriptor order with every descriptor
at least 2, and the list `give_file_descriptor` leaves (by `list_insert_ordered` into
a gap or by `list_push_back`) and the list `handle_close` leaves are so again. -/
theorem registry_stays_sorted (k : Kernel) (h : Reachable k) :
    (List.Sorted (· < ·) (fds k.file_list) ∧ ∀ d ∈ fds k.file_list, 2 ≤ d) ∧
    (∀ p : Nat, List.Sorted (· < ·) (fds (give_file_descriptor k.file_list p).2) ∧
      ∀ d ∈ fds (give_file_descriptor k.file_list p).2, 2 ≤ d) ∧
    (∀ (env : Env) (f : intr_frame),
      List.Sorted (· < ·) (fds (handle_close env k f).kernel.file_list) ∧
      ∀ d ∈ fds (handle_close env k f).kernel.file_list, 2 ≤ d) := by
  have hinv := registry_inv_of_reachable h
  refine ⟨(registry_sorted_iff _).1 hinv.sorted, fun p => ?_, fun env f => ?_⟩
  · exact (registry_sorted_iff _).1 (give_file_descriptor_sorted _ p hinv.sorted)
  · exact (registry_sorted_iff _).1 (registry_inv_close env k f hinv).sorted

/-- Witness of C16 at the state after two opens by two threads. -/
theorem registry_stays_sorted_witness :
    Reachable sample_kernel2 ∧
    List.Sorted (· < ·) (fds sample_kernel2.file_list) ∧
    ∀ d ∈ fds sample_kernel2.file_list, 2 ≤ d :=
  ⟨sample_kernel2_reachable,
    (registry_stays_sorted sample_kernel2 sample_kernel2_reachable).1⟩

/-- C18: in every state reached by open and close calls of any threads, every handle
of a thread's own list is linked into the global registry and no descriptor occurs
twice in one thread's list; so for a descriptor the thread owns, `find_file_by_fd`
returns the handle of that descriptor in the thread's own list, and that handle is
in the list of no other thread. -/
theorem own_handles_registered (k : Kernel) (h : Reachable k) :
    (∀ t, ∀ x ∈ k.thread_file_list t, x ∈ k.file_list) ∧
    (∀ t, (fds (k.thread_file_list t)).Nodup) ∧
    (∀ t fd, thread_has_file (k.thread_file_list t) fd = true →
      ∃ x, x ∈ k.thread_file_list t ∧ x.fd = fd ∧
        find_file_by_fd k.file_list fd = some x ∧
        ∀ t2, t2 ≠ t → x ∉ k.thread_file_list t2) := by
  have hinv := registry_inv_of_reachable h
  refine ⟨hinv.sub, hinv.own_nodup, ?_⟩
  intro t fd hown
  obtain ⟨x, hx, hxfd⟩ := List.mem_map.1 ((thread_has_file_iff _ fd).1 hown)
  refine ⟨x, hx, hxfd, ?_, ?_⟩
  · rw [← hxfd]
    exact find_file_by_fd_of_mem _ (chain_lt_nodup hinv.sorted) x (hinv.sub t x hx)
  · intro t2 hne hx2
    exact hne (hinv.disj t2 t x x hx2 hx rfl)

/-- Witness of C18 at the state after two opens by two threads. -/
theorem own_handles_registered_witness :
    Reachable sample_kernel2 ∧
    ∀ t, ∀ x ∈ sample_kernel2.thread_file_list t, x ∈ sample_kernel2.file_list :=
  ⟨sample_kernel2_reachable,
    (own_handles_registered sample_kernel2 sample_kernel2_reachable).1⟩

theorem handle_close_frame (env : Env) (k : Kernel) (f : intr_frame) :
    (handle_close env k f).frame = f := by
  unfold handle_close
  dsimp only
  split <;> rfl

theorem not_mem_fds_filter (l : List file) (fd : Int) :
    fd ∉ fds (l.filter (fun x => decide (x.fd ≠ fd))) := by
  intro hmem
  obtain ⟨x, hx, hxfd⟩ := List.mem_map.1 hmem
  have := (List.mem_filter.1 hx).2
  simp only [ne_eq, decide_not, Bool.not_eq_eq_eq_not, Bool.not_true,
    decide_eq_false_iff_not] at this
  exact this hxfd

/-- C11: in a reachable state, when the descriptor is in the calling thread's own
list, `handle_close` returns, and afterwards the caller's list and the global
registry are the old lists without the handle of that descriptor, the other handles
in their old order (`thread_has_file` is false, `find_file_by_fd` is `NULL`), and the
lists of the other threads are as they were; a second close of the same descriptor
by the same thread right after ends in `thread_exit` with exit status -1. -/
theorem close_owned_unlinks (env : Env) (k : Kernel) (f : intr_frame) (h : Reachable k)
    (hown : thread_has_file (k.thread_file_list env.cur) (to_int (load32 env (f.esp + 4)))
      = true) :
    (handle_close env k f).status = .returned ∧
    thread_has_file ((handle_close env k f).kernel.thread_file_list env.cur)
      (to_int (load32 env (f.esp + 4))) = false ∧
    find_file_by_fd (handle_close env k f).kernel.file_list (to_int (load32 env (f.esp + 4)))
      = none ∧
    (handle_close env k f).kernel.thread_file_list env.cur =
      (k.thread_file_list env.cur).filter
        (fun x => decide (x.fd ≠ to_int (load32 env (f.esp + 4)))) ∧
    (handle_close env k f).kernel.file_list =
      k.file_list.filter (fun x => decide (x.fd ≠ to_int (load32 env (f.esp + 4)))) ∧
    (∀ t, t ≠ env.cur →
      (handle_close env k f).kernel.thread_file_list t = k.thread_file_list t) ∧
    (handle_close env (handle_close env k f).kernel (handle_close env k f).frame).status
      = .exited ∧
    (handle_close env (handle_close env k f).kernel
      (handle_close env k f).frame).kernel.exit_status env.cur = -1 := by
  have hinv := registry_inv_of_reachable h
  rw [handle_close_frame]
  rcases handle_close_lists env k f with ⟨hnone, _⟩ | ⟨own, hrem, hfl, htl, hst⟩
  · rw [(remove_first_fd_none _ _), ← thread_has_file_iff, hown] at hnone
    exact absurd rfl hnone
  · have hin : to_int (load32 env (f.esp + 4)) ∈ fds (k.thread_file_list env.cur) :=
      (thread_has_file_iff _ _).1 hown
    obtain ⟨y, hy, hyfd⟩ := List.mem_map.1 hin
    have hgl : to_int (load32 env (f.esp + 4)) ∈ fds k.file_list :=
      hyfd ▸ List.mem_map_of_mem _ (hinv.sub _ y hy)
    obtain ⟨fl2, hfl2⟩ :
        ∃ fl2, remove_first_fd k.file_list (to_int (load32 env (f.esp + 4))) = some fl2 := by
      cases hc : remove_first_fd k.file_list (to_int (load32 env (f.esp + 4))) with
      | none => exact absurd hgl ((remove_first_fd_none _ _).1 hc)
      | some fl2 => exact ⟨fl2, rfl⟩
    rw [hfl2, Option.getD_some] at hfl
    have hown2 := remove_first_fd_eq_filter _ _ (hinv.own_nodup env.cur) own hrem
    have hfl3 := remove_first_fd_eq_filter _ _ (chain_lt_nodup hinv.sorted) fl2 hfl2
    have hcur : (handle_close env k f).kernel.thread_file_list env.cur =
        (k.thread_file_list env.cur).filter
          (fun x => decide (x.fd ≠ to_int (load32 env (f.esp + 4)))) := by
      rw [htl, ← hown2]
      simp [set_at]
    have hnot : thread_has_file ((handle_close env k f).kernel.thread_file_list env.cur)
        (to_int (load32 env (f.esp + 4))) = false := by
      rw [hcur, ← Bool.not_eq_true, thread_has_file_iff]
      exact not_mem_fds_filter _ _
    have hrem2 := remove_first_fd_of_not_has _ _ hnot
    refine ⟨hst, hnot, ?_, hcur, ?_, ?_, ?_, ?_⟩
    · rw [hfl, hfl3, find_file_by_fd_none]
      exact not_mem_fds_filter _ _
    · rw [hfl, hfl3]
    · intro t ht
      rw [htl]
      simp [set_at, ht]
    · rcases handle_close_lists env (handle_close env k f).kernel f with
        ⟨_, _, _, h4⟩ | ⟨own3, h3, _⟩
      · exact h4
      · rw [hrem2] at h3
        exact Option.noConfusion h3
    · generalize (handle_close env k f).kernel = k2 at hrem2 ⊢
      simp [handle_close, Kernel.emit, hrem2, set_at]

/-- Witness of C11: thread 1 closes descriptor 2, which it opened. -/
theorem close_owned_unlinks_witness :
    Reachable sample_kernel2 ∧
    thread_has_file (sample_kernel2.thread_file_list 1)
      (to_int (load32 (stack_env 1 0xbfffff00 12 2 0 0 5 none) (sample_frame.esp + 4))) = true ∧
    (handle_close (stack_env 1 0xbfffff00 12 2 0 0 5 none) sample_kernel2 sample_frame).status
      = .returned ∧
    find_file_by_fd (handle_close (stack_env 1 0xbfffff00 12 2 0 0 5 none) sample_kernel2
      sample_frame).kernel.file_list
      (to_int (load32 (stack_env 1 0xbfffff00 12 2 0 0 5 none) (sample_frame.esp + 4))) = none :=
  ⟨sample_kernel2_reachable, by decide,
    (close_owned_unlinks (stack_env 1 0xbfffff00 12 2 0 0 5 none) sample_kernel2 sample_frame
      sample_kernel2_reachable (by decide)).1,
    (close_owned_unlinks (stack_env 1 0xbfffff00 12 2 0 0 5 none) sample_kernel2 sample_frame
      sample_kernel2_reachable (by decide)).2.2.1⟩

/-- The effect of `handle_open` when both pointers are valid and `filesys_open` gives
the handle `p`. -/
theorem handle_open_success (env : Env) (k : Kernel) (f : intr_frame) (p : Nat)
    (h4 : is_invalid env (f.esp + 4) = false)
    (hname : is_invalid env (load32 env (f.esp + 4)) = false)
    (hp : env.filesys_open (load32 env (f.esp + 4)) = some p) :
    (handle_open env k f).kernel.file_list = (give_file_descriptor k.file_list p).2 ∧
    (handle_open env k f).kernel.thread_file_list =
      set_at k.thread_file_list env.cur
        (k.thread_file_list env.cur ++ [⟨p, (give_file_descriptor k.file_list p).1⟩]) ∧
    (handle_open env k f).frame.eax = to_uint32 (give_file_descriptor k.file_list p).1 ∧
    (handle_open env k f).status = .returned := by
  simp [handle_open, h4, hname, hp, Kernel.emit, ret_eax]

/-- The effect of `handle_open` when both pointers are valid and `filesys_open` gives
`NULL`. -/
theorem handle_open_failure (env : Env) (k : Kernel) (f : intr_frame)
    (h4 : is_invalid env (f.esp + 4) = false)
    (hname : is_invalid env (load32 env (f.esp + 4)) = false)
    (hp : env.filesys_open (load32 env (f.esp + 4)) = none) :
    (handle_open env k f).kernel.file_list = k.file_list ∧
    (handle_open env k f).kernel.thread_file_list = k.thread_file_list ∧
    (handle_open env k f).frame.eax = to_uint32 (-1) ∧
    (handle_open env k f).status = .returned := by
  simp [handle_open, h4, hname, hp, Kernel.emit, ret_eax]

/-- C12: in a reachable state, for an open call whose argument word and name pointer
are valid. If `filesys_open` gives a handle `p`, the handler returns with a
descriptor `d` in `eax` that no handle of the registry had, `find_file_by_fd (d)` is
then the new handle, `thread_has_file (d)` holds for the caller, every handle
registered before is still found under its descriptor, the old registry is a sublist
of the new one, the caller's list has the new handle appended and the other threads'
lists are as they were. If `filesys_open` gives `NULL`, `eax` holds -1 and the
registry and every thread's list are unchanged. -/
theorem open_registers_fresh_descriptor (env : Env) (k : Kernel) (f : intr_frame)
    (h : Reachable k) (h4 : is_invalid env (f.esp + 4) = false)
    (hname : is_invalid env (load32 env (f.esp + 4)) = false) :
    (∀ p, env.filesys_open (load32 env (f.esp + 4)) = some p →
      ∃ d : Int, 1 < d ∧ d ∉ fds k.file_list ∧
        (handle_open env k f).status = .returned ∧
        (handle_open env k f).frame.eax = to_uint32 d ∧
        find_file_by_fd (handle_open env k f).kernel.file_list d = some ⟨p, d⟩ ∧
        thread_has_file ((handle_open env k f).kernel.thread_file_list env.cur) d = true ∧
        (∀ x ∈ k.file_list,
          find_file_by_fd (handle_open env k f).kernel.file_list x.fd = some x) ∧
        k.file_list.Sublist (handle_open env k f).kernel.file_list ∧
        (handle_open env k f).kernel.file_list.Perm (⟨p, d⟩ :: k.file_list) ∧
        (handle_open env k f).kernel.thread_file_list env.cur =
          k.thread_file_list env.cur ++ [⟨p, d⟩] ∧
        ∀ t, t ≠ env.cur →
          (handle_open env k f).kernel.thread_file_list t = k.thread_file_list t) ∧
    (env.filesys_open (load32 env (f.esp + 4)) = none →
      (handle_open env k f).status = .returned ∧
      (handle_open env k f).frame.eax = to_uint32 (-1) ∧
      (handle_open env k f).kernel.file_list = k.file_list ∧
      (handle_open env k f).kernel.thread_file_list = k.thread_file_list) := by
  have hinv := registry_inv_of_reachable h
  constructor
  · intro p hp
    obtain ⟨hfl, htl, heax, hst⟩ := handle_open_success env k f p h4 hname hp
    obtain ⟨⟨h1, h2, _⟩, hins⟩ := give_file_descriptor_spec k.file_list p hinv.sorted
    have hsorted := give_file_descriptor_sorted k.file_list p hinv.sorted
    have hnodup := chain_lt_nodup hsorted
    have hmem := give_file_descriptor_mem k.file_list p hinv.sorted
    refine ⟨(give_file_descriptor k.file_list p).1, h1, h2, hst, heax, ?_, ?_, ?_, ?_, ?_, ?_, ?_⟩
    · rw [hfl]
      exact find_file_by_fd_of_mem _ hnodup ⟨p, (give_file_descriptor k.file_list p).1⟩
        ((hmem _).2 (Or.inl rfl))
    · rw [htl, thread_has_file_iff]
      simp [set_at, fds]
    · intro x hx
      rw [hfl]
      exact find_file_by_fd_of_mem _ hnodup x ((hmem x).2 (Or.inr hx))
    · rw [hfl, hins]
      exact list_insert_ordered_sublist _ _
    · rw [hfl, hins]
      exact list_insert_ordered_perm _ _
    · rw [htl]
      simp [set_at]
    · intro t ht
      rw [htl]
      simp [set_at, ht]
  · intro hp
    obtain ⟨hfl, htl, heax, hst⟩ := handle_open_failure env k f h4 hname hp
    exact ⟨hst, heax, hfl, htl⟩

/-- Witness of C12: thread 1 opens a third file in the state after two opens. -/
theorem open_registers_fresh_descriptor_witness :
    Reachable sample_kernel2 ∧
    is_invalid (sample_env 1 0x8048000 (some 300)) (sample_frame.esp + 4) = false ∧
    is_invalid (sample_env 1 0x8048000 (some 300))
      (load32 (sample_env 1 0x8048000 (some 300)) (sample_frame.esp + 4)) = false ∧
    ∃ d : Int, d ∉ fds sample_kernel2.file_list ∧
      (handle_open (sample_env 1 0x8048000 (some 300)) sample_kernel2 sample_frame).frame.eax
        = to_uint32 d ∧
      find_file_by_fd
        (handle_open (sample_env 1 0x8048000 (some 300)) sample_kernel2
          sample_frame).kernel.file_list d = some ⟨300, d⟩ := by
  obtain ⟨d, _, h2, _, h4, h5, _⟩ :=
    (open_registers_fresh_descriptor (sample_env 1 0x8048000 (some 300)) sample_kernel2
      sample_frame sample_kernel2_reachable (by decide) (by decide)).1 300 rfl
  exact ⟨sample_kernel2_reachable, by decide, by decide, d, h2, h4, h5⟩

/-! ## Claims on the dispatcher -/

/-- C13: when the stack pointer of the trap frame is null, at or above `PHYS_BASE`, or
unmapped, `syscall_handler` dereferences nothing (the only new event is the exit
line): it leaves -1 in `eax`, sets the caller's `is_killed` flag and ends in
`thread_exit`. When the stack pointer passes the check, the handler loads the word
at `esp` and runs exactly the handler of that syscall number, on the unchanged
frame; for a number with no handler it returns at once. -/
theorem syscall_handler_dispatch (env : Env) (k : Kernel) (f : intr_frame) :
    (is_invalid env f.esp = true →
      (syscall_handler env k f).status = .exited ∧
      (syscall_handler env k f).frame.eax = to_uint32 (-1) ∧
      (syscall_handler env k f).kernel.is_killed env.cur = true ∧
      (syscall_handler env k f).kernel.trace = k.trace ++ [.printf_exit env.cur (-1)] ∧
      (syscall_handler env k f).kernel.file_list = k.file_list ∧
      (syscall_handler env k f).kernel.thread_file_list = k.thread_file_list) ∧
    (is_invalid env f.esp = false →
      (to_int (load32 env f.esp) = SYS_EXIT →
        syscall_handler env k f = handle_exit env (k.emit (.deref f.esp)) f) ∧
      (to_int (load32 env f.esp) = SYS_WRITE →
        syscall_handler env k f = handle_write env (k.emit (.deref f.esp)) f) ∧
      (to_int (load32 env f.esp) = SYS_HALT →
        syscall_handler env k f = handle_halt env (k.emit (.deref f.esp)) f) ∧
      (to_int (load32 env f.esp) = SYS_CREATE →
        syscall_handler env k f = handle_create env (k.emit (.deref f.esp)) f) ∧
      (to_int (load32 env f.esp) = SYS_OPEN →
        syscall_handler env k f = handle_open env (k.emit (.deref f.esp)) f) ∧
      (to_int (load32 env f.esp) = SYS_REMOVE →
        syscall_handler env k f = handle_remove env (k.emit (.deref f.esp)) f) ∧
      (to_int (load32 env f.esp) = SYS_CLOSE →
        syscall_handler env k f = handle_close env (k.emit (.deref f.esp)) f) ∧
      (to_int (load32 env f.esp) = SYS_READ →
        syscall_handler env k f = handle_read env (k.emit (.deref f.esp)) f) ∧
      (to_int (load32 env f.esp) = SYS_FILESIZE →
        syscall_handler env k f = handle_filesize env (k.emit (.deref f.esp)) f) ∧
      (to_int (load32 env f.esp) = SYS_EXEC →
        syscall_handler env k f = handle_exec env (k.emit (.deref f.esp)) f) ∧
      (to_int (load32 env f.esp) = SYS_WAIT →
        syscall_handler env k f = handle_wait env (k.emit (.deref f.esp)) f) ∧
      ((        to_int (load32 env f.esp) ≠ SYS_EXIT ∧
        to_int (load32 env f.esp) ≠ SYS_WRITE ∧
        to_int (load32 env f.esp) ≠ SYS_HALT ∧
        to_int (load32 env f.esp) ≠ SYS_CREATE ∧
        to_int (load32 env f.esp) ≠ SYS_OPEN ∧
        to_int (load32 env f.esp) ≠ SYS_REMOVE ∧
        to_int (load32 env f.esp) ≠ SYS_CLOSE ∧
        to_int (load32 env f.esp) ≠ SYS_READ ∧
        to_int (load32 env f.esp) ≠ SYS_FILESIZE ∧
        to_int (load32 env f.esp) ≠ SYS_EXEC ∧
        to_int (load32 env f.esp) ≠ SYS_WAIT) →
        syscall_handler env k f =
          { kernel := k.emit (.deref f.esp), frame := f, status := .returned })) := by
  constructor
  · intro hinv
    simp [syscall_handler, hinv, handle_invalid, Kernel.emit, set_at]
  · intro hval
    refine ⟨?_, ?_, ?_, ?_, ?_, ?_, ?_, ?_, ?_, ?_, ?_, ?_⟩
    all_goals
      intro hn
      simp only [SYS_EXIT, SYS_WRITE, SYS_HALT, SYS_CREATE, SYS_OPEN, SYS_REMOVE, SYS_CLOSE, SYS_READ,
        SYS_FILESIZE, SYS_EXEC, SYS_WAIT] at hn
      simp [syscall_handler, hval, hn, SYS_EXIT, SYS_WRITE, SYS_HALT, SYS_CREATE, SYS_OPEN, SYS_REMOVE, SYS_CLOSE, SYS_READ,
        SYS_FILESIZE, SYS_EXEC, SYS_WAIT]

/-- Witness of C13: a null stack pointer, and a close call on a valid one. -/
theorem syscall_handler_dispatch_witness :
    is_invalid (stack_env 1 0 12 2 0 0 5 none) 0 = true ∧
    (syscall_handler (stack_env 1 0 12 2 0 0 5 none) sample_kernel2
      { esp := 0, eax := 0 }).kernel.trace = sample_kernel2.trace ++ [.printf_exit 1 (-1)] ∧
    is_invalid (stack_env 1 0xbfffff00 12 2 0 0 5 none) sample_frame.esp = false ∧
    to_int (load32 (stack_env 1 0xbfffff00 12 2 0 0 5 none) sample_frame.esp) = SYS_CLOSE ∧
    syscall_handler (stack_env 1 0xbfffff00 12 2 0 0 5 none) sample_kernel2 sample_frame =
      handle_close (stack_env 1 0xbfffff00 12 2 0 0 5 none)
        (sample_kernel2.emit (.deref sample_frame.esp)) sample_frame :=
  ⟨by decide,
    ((syscall_handler_dispatch (stack_env 1 0 12 2 0 0 5 none) sample_kernel2
      { esp := 0, eax := 0 }).1 (by decide)).2.2.2.1,
    by decide, by decide,
    ((syscall_handler_dispatch (stack_env 1 0xbfffff00 12 2 0 0 5 none) sample_kernel2
      sample_frame).2 (by decide)).2.2.2.2.2.2.1 (by decide)⟩

/-! ## Further lemmas on the swap table -/

theorem find_free_slot_first (tbl : List swap_entry) :
    ∀ i sec, find_free_slot tbl = some (i, sec) →
      ∀ j, j < i → ∀ sj, tbl.get? j = some sj → sj.is_used = true := by
  induction tbl with
  | nil => intro i sec h; simp [find_free_slot] at h
  | cons x tbl ih =>
    intro i sec h j hj sj hsj
    unfold find_free_slot at h
    split at h
    · simp only [Option.some.injEq, Prod.mk.injEq] at h
      omega
    · rename_i hx
      simp only [Option.map_eq_some', Prod.mk.injEq] at h
      obtain ⟨⟨i2, sec2⟩, hi2, rfl, rfl⟩ := h
      cases j with
      | zero =>
        simp only [List.get?_cons_zero, Option.some.injEq] at hsj
        subst hsj
        simpa using hx
      | succ j =>
        simp only [List.get?_cons_succ] at hsj
        exact ih i2 sec2 hi2 j (by omega) sj hsj

theorem set_used_length (tbl : List swap_entry) (b : Bool) :
    ∀ i, (set_used tbl i b).length = tbl.length := by
  induction tbl with
  | nil => intro i; rfl
  | cons x tbl ih =>
    intro i
    cases i with
    | zero => rfl
    | succ i => simp [set_used, ih i]

/-- The table `swap_init` builds on a disk of `d.size` sectors: one Free slot for
every multiple of 8 below the size. -/
theorem swap_init_table_eq (s : VM) (d : disk) (hd : s.swap_disk = some d) :
    (swap_init s).map (fun s2 => s2.swap_table) =
      some ((List.range ((d.size + 7) / 8)).map (fun k => ⟨false, 8 * k⟩)) := by
  simp only [swap_init, hd, Option.map_some', Option.some.injEq]
  rw [swap_init_loop_eq d.size d.size 0 [] (by omega)]
  simp

/-! ## Further claims on the swap device manager -/

/-- C14: with a swap disk, an entry for the frame and a Free slot in the table,
`swap_out` returns; the slot it takes is the first in table order with `is_used`
false; sector `first_sec_no + k` of that slot holds bytes `512 * k` to
`512 * k + 511` of the frame for `k` from 0 to 7, and no other sector changed; the
slot is marked in use and no other slot changed; the entry records the slot, is
tagged `CASE_SWAP` and has `kpage = NULL`; the frame page and the frame entry were
handed to `palloc_free_page` and `free`. -/
theorem swap_out_effect (s : VM) (f : frame_entry) (e : sup_page_entry) (d : disk)
    (hd : s.swap_disk = some d)
    (he : s.sup_page_table f.using_thread f.upage = some e)
    (hfree : ∃ se ∈ s.swap_table, se.is_used = false) :
    ∃ s2 i se d2, swap_out s f = some s2 ∧
      s.swap_table.get? i = some se ∧ se.is_used = false ∧
      (∀ j, j < i → ∀ sj, s.swap_table.get? j = some sj → sj.is_used = true) ∧
      s2.swap_disk = some d2 ∧
      (∀ k, k < 8 → ∀ o, o < 512 →
        d2.data (se.first_sec_no + k) o = s.mem (f.kpage + k * 512 + o)) ∧
      (∀ sec o, ¬ (se.first_sec_no ≤ sec ∧ sec < se.first_sec_no + 8) →
        d2.data sec o = d.data sec o) ∧
      s2.swap_table.get? i = some { se with is_used := true } ∧
      (∀ j, j ≠ i → s2.swap_table.get? j = s.swap_table.get? j) ∧
      s2.swap_table.length = s.swap_table.length ∧
      s2.sup_page_table f.using_thread f.upage =
        some { e with swap_address := some i, fault_case := .CASE_SWAP, kpage := none } ∧
      (∀ t u, ¬ (t = f.using_thread ∧ u = f.upage) →
        s2.sup_page_table t u = s.sup_page_table t u) ∧
      s2.palloc_freed = s.palloc_freed ++ [f.kpage] ∧
      s2.freed_frames = s.freed_frames ++ [f] := by
  cases hfind : find_free_slot s.swap_table with
  | none =>
    obtain ⟨se, hse, hu⟩ := hfree
    rw [(find_free_slot_none _).1 hfind se hse] at hu
    exact Bool.noConfusion hu
  | some r =>
    obtain ⟨i, sec⟩ := r
    obtain ⟨se0, hse0, hfree0, hsec0⟩ := find_free_slot_some _ i sec hfind
    have hrun : swap_out s f = some { s with
        swap_disk := some (write_sectors d sec s.mem f.kpage),
        swap_table := set_used s.swap_table i true,
        sup_page_table := set_entry s.sup_page_table f.using_thread f.upage
          { e with swap_address := some i, fault_case := .CASE_SWAP, kpage := none },
        palloc_freed := s.palloc_freed ++ [f.kpage],
        freed_frames := s.freed_frames ++ [f] } := by
      simp only [swap_out, hd, he, hfind]
    refine ⟨_, i, se0, write_sectors d sec s.mem f.kpage, hrun, hse0, hfree0,
      find_free_slot_first _ i sec hfind, rfl, ?_, ?_, ?_, ?_, ?_, ?_, ?_, rfl, rfl⟩
    · intro k hk o ho
      have hc : sec ≤ se0.first_sec_no + k ∧ se0.first_sec_no + k < sec + 8 ∧ o < 512 := by
        omega
      rw [write_sectors_data, if_pos hc, hsec0, Nat.add_sub_cancel_left]
    · intro sc o hsc
      have hc : ¬ (sec ≤ sc ∧ sc < sec + 8 ∧ o < 512) := by
        rw [← hsec0]
        exact fun hh => hsc ⟨hh.1, hh.2.1⟩
      rw [write_sectors_data, if_neg hc]
    · show (set_used s.swap_table i true).get? i = _
      rw [set_used_get, if_pos rfl, hse0]
      rfl
    · intro j hj
      show (set_used s.swap_table i true).get? j = _
      rw [set_used_get, if_neg hj]
    · exact set_used_length _ _ _
    · show set_entry _ _ _ _ _ _ = _
      simp [set_entry_get]
    · intro t u hk
      show set_entry _ _ _ _ _ _ = _
      rw [set_entry_get, if_neg hk]

/-- Witness of C14: the page of thread 1 is evicted right after `swap_init`. -/
theorem swap_out_effect_witness :
    (∃ se ∈ sample_vm.swap_table, se.is_used = false) ∧
    ∃ s2 i, swap_out sample_vm sample_frame_entry = some s2 ∧
      s2.swap_table.get? i = some ⟨true, 0⟩ ∧
      s2.sup_page_table 1 0x8048000 = some ⟨0x8048000, none, .CASE_SWAP, some i⟩ := by
  have hfree : ∃ se ∈ sample_vm.swap_table, se.is_used = false := ⟨⟨false, 0⟩, by decide, rfl⟩
  obtain ⟨s2, i, se, d2, h1, h2, h3, h4, _, _, _, h5, _, _, h6, _⟩ :=
    swap_out_effect sample_vm sample_frame_entry ⟨0x8048000, some 0xc0100000, .CASE_ZERO, none⟩
      { size := 16, data := fun _ _ => 0 } rfl (by decide) hfree
  have hi : i = 0 := by
    by_contra hne
    have h0 := h4 0 (Nat.pos_of_ne_zero hne) ⟨false, 0⟩ (by decide)
    exact Bool.noConfusion h0
  subst hi
  have hse : se = ⟨false, 0⟩ := by
    have h7 : sample_vm.swap_table.get? 0 = some ⟨false, 0⟩ := by decide
    rw [h7] at h2
    simp only [Option.some.injEq] at h2
    exact h2.symm
  subst hse
  exact ⟨hfree, s2, 0, h1, h5, h6⟩

/-- C17: with a swap disk, an entry for the frame, and every slot of the table in
use, `swap_out` returns normally; it writes no sector and changes no slot, the
entry keeps its tag and its recorded slot and only has `kpage` set to `NULL`, and
the frame page and the frame entry are nevertheless handed to `palloc_free_page`
and `free`. -/
theorem swap_out_without_free_slot (s : VM) (f : frame_entry) (e : sup_page_entry) (d : disk)
    (hd : s.swap_disk = some d)
    (he : s.sup_page_table f.using_thread f.upage = some e)
    (hfull : ∀ se ∈ s.swap_table, se.is_used = true) :
    ∃ s2, swap_out s f = some s2 ∧
      s2.swap_disk = some d ∧
      s2.swap_table = s.swap_table ∧
      s2.sup_page_table f.using_thread f.upage = some { e with kpage := none } ∧
      (∀ t u, ¬ (t = f.using_thread ∧ u = f.upage) →
        s2.sup_page_table t u = s.sup_page_table t u) ∧
      s2.mem = s.mem ∧ s2.pagedir = s.pagedir ∧
      s2.palloc_freed = s.palloc_freed ++ [f.kpage] ∧
      s2.freed_frames = s.freed_frames ++ [f] := by
  have hfind := (find_free_slot_none _).2 hfull
  have hrun : swap_out s f = some { s with
      sup_page_table := set_entry s.sup_page_table f.using_thread f.upage
        { e with kpage := none },
      palloc_freed := s.palloc_freed ++ [f.kpage],
      freed_frames := s.freed_frames ++ [f] } := by
    simp only [swap_out, hd, he, hfind]
  refine ⟨_, hrun, hd, rfl, ?_, ?_, rfl, rfl, rfl, rfl⟩
  · show set_entry _ _ _ _ _ _ = _
    simp [set_entry_get]
  · intro t u hk
    show set_entry _ _ _ _ _ _ = _
    rw [set_entry_get, if_neg hk]

/-- Witness of C17: the only slot is in use when the page of thread 1 is evicted. -/
theorem swap_out_without_free_slot_witness :
    (∀ se ∈ sample_full_vm.swap_table, se.is_used = true) ∧
    ∃ s2, swap_out sample_full_vm sample_frame_entry = some s2 ∧
      s2.swap_table = [⟨true, 0⟩] ∧
      s2.sup_page_table 1 0x8048000 = some ⟨0x8048000, none, .CASE_ZERO, none⟩ ∧
      s2.palloc_freed = [0xc0100000] := by
  have hfull : ∀ se ∈ sample_full_vm.swap_table, se.is_used = true := by decide
  obtain ⟨s2, h1, _, h2, h3, _, _, _, h4, _⟩ :=
    swap_out_without_free_slot sample_full_vm sample_frame_entry
      ⟨0x8048000, some 0xc0100000, .CASE_ZERO, none⟩ { size := 16, data := fun _ _ => 0 }
      rfl (by decide) hfull
  exact ⟨hfull, s2, h1, h2, h3, h4⟩

/-- C15 (the code departs from the claim): on a swap disk of 12 sectors `swap_init`
builds two Free slots starting at sectors 0 and 8; the second one's eight sectors,
8 to 15, do not lie inside the device. -/
theorem swap_init_slot_past_device_end :
    (swap_init sample_vm12).map (fun s => s.swap_table) = some [⟨false, 0⟩, ⟨false, 8⟩] ∧
    ¬ ((⟨false, 8⟩ : swap_entry).first_sec_no + 8 ≤ 12) := by
  decide

end Pintos
